import Mathlib

/-!
# Verification of the ThaiDatePicker core logic

Shallow embedding of `src/dateUtils.ts` and the core (non-visual) logic of
the `ThaiDatePicker` component (input masking, value synchronisation).

Modelling conventions:
* JS strings are modelled as `List Char`.
* A JS `Date` value is modelled by its observable fields
  (`getFullYear`, `getMonth`, `getDate`, `getHours`, `getMinutes`) after
  normalisation, as the structure `JSDate`.  The JS `Date(y, m, d)`
  constructor semantics (two-digit-year remapping to 1900+y, month and
  day overflow normalisation) is modelled by `jsMakeDate`.  The JS range
  clamp at ±100 000 000 days from the epoch is not modelled; every
  theorem below stays far inside that range.
* `parseInt(s, 10)` is modelled by `jsParseInt` (skip leading whitespace,
  optional sign, maximal decimal-digit prefix, `none` for NaN).
* `new Date().getFullYear()` (the current real-world year) is passed to
  the display parsers as an explicit parameter `today`.
-/

namespace ThaiDatePicker

/-- `BE_OFFSET` constant from `dateUtils.ts`. -/
def BE_OFFSET : Int := 543

/-! ## JS number/string primitives -/

/-- Whitespace skipped by JS `parseInt` (main ASCII white space). -/
def isJsSpace (c : Char) : Bool := c = ' ' ∨ c = '\t' ∨ c = '\n' ∨ c = '\r'

/-- Decimal value accumulator: value of a digit-char list, given an
accumulator (mirrors how JS reads a digit prefix left to right). -/
def digitsValAux (acc : Nat) : List Char → Nat
  | [] => acc
  | c :: t => digitsValAux (acc * 10 + (c.toNat - 48)) t

/-- Decimal value of a list of digit characters. -/
def digitsVal (l : List Char) : Nat := digitsValAux 0 l

/-- Fuel-driven decimal printer (digits of `n`, most significant first). -/
def natDigitsF : Nat → Nat → List Char
  | 0, _ => []
  | f + 1, n =>
    if n < 10 then [Char.ofNat (48 + n)]
    else natDigitsF f (n / 10) ++ [Char.ofNat (48 + n % 10)]

/-- Decimal digits of `n`, most significant first (JS `String(n)` for a
non-negative integer). -/
def natDigits (n : Nat) : List Char := natDigitsF (n + 1) n

/-- JS `String(i)` for an integer-valued number. -/
def jsNumToString (i : Int) : List Char :=
  if i < 0 then '-' :: natDigits (-i).toNat else natDigits i.toNat

/-- JS `s.padStart(2, '0')`. -/
def pad2 (l : List Char) : List Char :=
  if l.length < 2 then List.replicate (2 - l.length) '0' ++ l else l

/-- JS `parseInt(s, 10)`: skip leading whitespace, optional single sign,
then the maximal decimal-digit prefix; `none` models NaN. -/
def jsParseInt (l : List Char) : Option Int :=
  let l1 := l.dropWhile isJsSpace
  let neg : Bool := l1.head? = some '-'
  let l2 := if l1.head? = some '-' ∨ l1.head? = some '+' then l1.tail else l1
  let ds := l2.takeWhile Char.isDigit
  if ds = [] then none
  else some ((if neg then (-1 : Int) else 1) * (digitsVal ds : Int))

/-- Prepend a character onto the first piece of a split result. -/
def consHead (c : Char) : List (List Char) → List (List Char)
  | [] => [[c]]
  | h :: r => (c :: h) :: r

/-- JS `s.split(sep)` for a single-character separator. -/
def splitOnChar (sep : Char) : List Char → List (List Char)
  | [] => [[]]
  | c :: t =>
    if c = sep then [] :: splitOnChar sep t else consHead c (splitOnChar sep t)

/-- JS `l.slice(a, b)` for `0 ≤ a ≤ b`. -/
def jsSlice (l : List Char) (a b : Nat) : List Char := (l.drop a).take (b - a)

/-! ## JS `Date` model -/

/-- The observable fields of a JS `Date`: `getFullYear`, `getMonth`
(0-based), `getDate`, `getHours`, `getMinutes`. -/
structure JSDate where
  year : Int
  month : Int
  day : Int
  hour : Int
  minute : Int
deriving DecidableEq, Repr

/-- Gregorian leap-year rule (as used by the proleptic Gregorian calendar
of the JS `Date` object). -/
def isLeap (y : Int) : Bool := (y % 4 == 0 && y % 100 != 0) || y % 400 == 0

/-- Days in month `m` (0-based, must be in `0..11` — but total) of
Gregorian year `y`, matching JS `Date` month arithmetic. -/
def daysInMonth0 (y m : Int) : Int :=
  if m = 1 then (if isLeap y then 29 else 28)
  else if m = 3 ∨ m = 5 ∨ m = 8 ∨ m = 10 then 30
  else 31

/-- Measure bounding the number of month-carry steps needed to normalise
a day-of-month value `d`. -/
def normMeasure (d : Int) : Nat := if 1 ≤ d then d.toNat else (33 - d).toNat

/-- Fuel-driven day-of-month normalisation: starting from day `d`
(possibly `< 1` or beyond the end of the month) of month `m` (0-based) of year
`y`, carry into adjacent months until the day is in range, exactly as the
JS `MakeDay` computation behaves observably. -/
def normDayF : Nat → Int → Int → Int → Int × Int × Int
  | 0, y, m, d => (y, m, d)
  | f + 1, y, m, d =>
    if d < 1 then
      let m' : Int := if m = 0 then 11 else m - 1
      let y' : Int := if m = 0 then y - 1 else y
      normDayF f y' m' (d + daysInMonth0 y' m')
    else if daysInMonth0 y m < d then
      let m' : Int := if m = 11 then 0 else m + 1
      let y' : Int := if m = 11 then y + 1 else y
      normDayF f y' m' (d - daysInMonth0 y m)
    else (y, m, d)

/-- Day-of-month normalisation with adequate fuel. -/
def normDay (y m d : Int) : Int × Int × Int := normDayF (normMeasure d + 1) y m d

/-- Field semantics of JS `new Date(y, m, d)` (time fields 0): two-digit
years 0–99 are remapped to 1900+y, then the month is normalised into
`0..11` with a year carry, then the day is normalised. -/
def jsMakeDate (y m d : Int) : JSDate :=
  let y1 : Int := if 0 ≤ y ∧ y ≤ 99 then 1900 + y else y
  let ym : Int := y1 + m / 12
  let mn : Int := m % 12
  let r := normDay ym mn d
  ⟨r.1, r.2.1, r.2.2, 0, 0⟩

/-! ## DateCodec: the functions of `src/dateUtils.ts`

`Date | null` arguments are modelled as `Option JSDate`; an invalid
`Date` (`isNaN(date.getTime())`) cannot arise in the model, so the
`!date || isNaN(date.getTime())` guard of the formatters is the `none`
case. -/

/-- `formatThaiDate`: `DD/MM/YYYY` with a Buddhist-Era year (unpadded). -/
def formatThaiDate (date : Option JSDate) : List Char :=
  match date with
  | none => []
  | some d =>
    pad2 (jsNumToString d.day) ++ '/' :: pad2 (jsNumToString (d.month + 1)) ++ '/' ::
      jsNumToString (d.year + BE_OFFSET)

/-- `formatThaiDateTime`: `DD/MM/YYYY HH:mm` with a Buddhist-Era year. -/
def formatThaiDateTime (date : Option JSDate) : List Char :=
  match date with
  | none => []
  | some d =>
    pad2 (jsNumToString d.day) ++ '/' :: pad2 (jsNumToString (d.month + 1)) ++ '/' ::
      jsNumToString (d.year + BE_OFFSET) ++ ' ' ::
      pad2 (jsNumToString d.hour) ++ ':' :: pad2 (jsNumToString d.minute)

/-- `formatADDate`: `YYYY-MM-DD` (the year is not padded by the source). -/
def formatADDate (date : Option JSDate) : List Char :=
  match date with
  | none => []
  | some d =>
    jsNumToString d.year ++ '-' :: pad2 (jsNumToString (d.month + 1)) ++ '-' ::
      pad2 (jsNumToString d.day)

/-- `formatADDateTime`: `YYYY-MM-DD HH:mm`. -/
def formatADDateTime (date : Option JSDate) : List Char :=
  match date with
  | none => []
  | some d =>
    jsNumToString d.year ++ '-' :: pad2 (jsNumToString (d.month + 1)) ++ '-' ::
      pad2 (jsNumToString d.day) ++ ' ' ::
      pad2 (jsNumToString d.hour) ++ ':' :: pad2 (jsNumToString d.minute)

/-- `parseThaiDate`: parses `DD/MM/YYYY` (BE year); `today` stands for
`new Date().getFullYear()`. -/
def parseThaiDate (today : Int) (value : List Char) : Option JSDate :=
  if value.length ≠ 10 then none
  else
    match splitOnChar '/' value with
    | [p0, p1, p2] =>
      match jsParseInt p0, jsParseInt p1, jsParseInt p2 with
      | some day, some month, some yearBE =>
        if month < 1 ∨ month > 12 then none
        else if day < 1 ∨ day > 31 then none
        else
          let yearAD := yearBE - BE_OFFSET
          if yearAD > today + 100 ∨ yearAD < today - 100 then none
          else
            let date := jsMakeDate yearAD (month - 1) day
            if date.year = yearAD ∧ date.month = month - 1 ∧ date.day = day then some date
            else none
      | _, _, _ => none
    | _ => none

/-- `parseThaiDateTime`: parses `DD/MM/YYYY HH:mm` (BE year). -/
def parseThaiDateTime (today : Int) (value : List Char) : Option JSDate :=
  if value.length ≠ 16 then none
  else
    match splitOnChar ' ' value with
    | dateStr :: timeStr :: _ =>
      if dateStr = [] ∨ timeStr = [] then none
      else
        match parseThaiDate today dateStr with
        | none => none
        | some date =>
          match splitOnChar ':' timeStr with
          | hourStr :: minuteStr :: _ =>
            match jsParseInt hourStr, jsParseInt minuteStr with
            | some hour, some minute =>
              if hour < 0 ∨ hour > 23 then none
              else if minute < 0 ∨ minute > 59 then none
              else some { date with hour := hour, minute := minute }
            | _, _ => none
          | _ => none
    | _ => none

/-- `parseADDate`: parses `YYYY-MM-DD`. -/
def parseADDate (value : List Char) : Option JSDate :=
  if value = [] ∨ value.length ≠ 10 then none
  else
    match splitOnChar '-' value with
    | [p0, p1, p2] =>
      match jsParseInt p0, jsParseInt p1, jsParseInt p2 with
      | some year, some month, some day =>
        let date := jsMakeDate year (month - 1) day
        if date.year = year ∧ date.month = month - 1 ∧ date.day = day then some date
        else none
      | _, _, _ => none
    | _ => none

/-- `parseADDateTime`: parses `YYYY-MM-DD HH:mm`. -/
def parseADDateTime (value : List Char) : Option JSDate :=
  if value = [] ∨ value.length ≠ 16 then none
  else
    match splitOnChar ' ' value with
    | dateStr :: timeStr :: _ =>
      if dateStr = [] ∨ timeStr = [] then none
      else
        match parseADDate dateStr with
        | none => none
        | some date =>
          match splitOnChar ':' timeStr with
          | hourStr :: minuteStr :: _ =>
            match jsParseInt hourStr, jsParseInt minuteStr with
            | some hour, some minute =>
              if hour < 0 ∨ hour > 23 then none
              else if minute < 0 ∨ minute > 59 then none
              else some { date with hour := hour, minute := minute }
            | _, _ => none
          | _ => none
    | _ => none

/-! ## The ThaiDatePicker component core (mode dispatch, input masking,
value synchronisation) -/

/-- `parseThai` helper of the component (mode dispatch). -/
def parseThai (withTime : Bool) (today : Int) (s : List Char) : Option JSDate :=
  if withTime then parseThaiDateTime today s else parseThaiDate today s

/-- `formatThai` helper of the component (mode dispatch). -/
def formatThai (withTime : Bool) (d : Option JSDate) : List Char :=
  if withTime then formatThaiDateTime d else formatThaiDate d

/-- `parseAD` helper of the component (mode dispatch). -/
def parseAD (withTime : Bool) (s : List Char) : Option JSDate :=
  if withTime then parseADDateTime s else parseADDate s

/-- `formatAD` helper of the component (mode dispatch). -/
def formatAD (withTime : Bool) (d : Option JSDate) : List Char :=
  if withTime then formatADDateTime d else formatADDate d

/-- The re-punctuation chain of `handleInputChange`, applied to the
already-stripped-and-truncated digit buffer `raw`. -/
def maskFormat (withTime : Bool) (raw : List Char) : List Char :=
  let f1 := if 0 < raw.length then jsSlice raw 0 2 else []
  let f2 := if 3 ≤ raw.length then f1 ++ '/' :: jsSlice raw 2 4 else f1
  let f3 := if 5 ≤ raw.length then f2 ++ '/' :: jsSlice raw 4 8 else f2
  let f4 := if withTime ∧ 9 ≤ raw.length then f3 ++ ' ' :: jsSlice raw 8 10 else f3
  let f5 := if withTime ∧ 11 ≤ raw.length then f4 ++ ':' :: jsSlice raw 10 12 else f4
  f5

/-- The masking step of `handleInputChange`: strips non-digits, truncates
to the maximum digit count of the mode and re-punctuates.  Returns
`(raw digits, formatted display text)`. -/
def maskDigits (withTime : Bool) (text : List Char) : List Char × List Char :=
  let raw0 := text.filter Char.isDigit
  let maxDigits : Nat := if withTime then 12 else 8
  let raw := if maxDigits < raw0.length then raw0.take maxDigits else raw0
  (raw, maskFormat withTime raw)

/-- `handleInputChange`: returns the new display text and `some s` when
`onChange(s)` is invoked (`none` = no emission).  The `viewDate` and
`selectedTime` updates carry no information relevant to the claims and
are omitted. -/
def handleInputChange (withTime : Bool) (today : Int) (text : List Char) :
    List Char × Option (List Char) :=
  let r := maskDigits withTime text
  let expectedLength : Nat := if withTime then 16 else 10
  if r.2.length = expectedLength then
    match parseThai withTime today r.2 with
    | some parsedDate => (r.2, some (formatAD withTime (some parsedDate)))
    | none => (r.2, some [])
  else if r.1.length = 0 then (r.2, some [])
  else (r.2, none)

/-- `isSameDate` from the value-sync effect.  `getTime()` equality of two
normalised dates (seconds and milliseconds both 0 here) is field
equality, so it is modelled by structure equality. -/
def isSameDate (d1 d2 : Option JSDate) : Bool :=
  match d1, d2 with
  | none, none => true
  | some a, some b => a = b
  | _, _ => false

/-- Body of the value-synchronisation `useEffect`: given the incoming
external `value` and the current display text `inputValue`, returns the
new display text (the `viewDate`/`selectedTime` updates are omitted as
irrelevant to the claims). -/
def valueSync (withTime : Bool) (today : Int) (value inputValue : List Char) : List Char :=
  let currentInputDate := parseThai withTime today inputValue
  let propDate := parseAD withTime value
  if isSameDate propDate currentInputDate then inputValue
  else
    match propDate with
    | some d => formatThai withTime (some d)
    | none => if value = [] then [] else inputValue

/-- One render worth of the value-sync `useEffect` including its React
dependency array `[value, withTime]`: the body runs only when a
dependency differs from the value of the previous render. -/
def valueSyncEffect (withTime prevWithTime : Bool) (today : Int)
    (prevValue value inputValue : List Char) : List Char :=
  if value = prevValue ∧ withTime = prevWithTime then inputValue
  else valueSync withTime today value inputValue

/-- Validity of a date-time instant as the data model requires: an
existing Gregorian calendar date with in-range wall-clock fields. -/
def ValidDate (dt : JSDate) : Prop :=
  0 ≤ dt.month ∧ dt.month ≤ 11 ∧ 1 ≤ dt.day ∧ dt.day ≤ daysInMonth0 dt.year dt.month ∧
  0 ≤ dt.hour ∧ dt.hour ≤ 23 ∧ 0 ≤ dt.minute ∧ dt.minute ≤ 59

instance : DecidablePred ValidDate := fun dt => by
  unfold ValidDate
  infer_instance

/-- The re-punctuation rule as the spec words it
(digits 1–2 → DD; if ≥3 digits, '/' then digits 3–4; if ≥5, '/' then
digits 5–8; time mode: if ≥9, ' ' then digits 9–10; if ≥11, ':' then
digits 11–12), for comparison against `maskFormat` from the source. -/
def specRepunct (withTime : Bool) (r : List Char) : List Char :=
  r.take 2
    ++ (if 3 ≤ r.length then '/' :: (r.drop 2).take 2 else [])
    ++ (if 5 ≤ r.length then '/' :: (r.drop 4).take 4 else [])
    ++ (if withTime ∧ 9 ≤ r.length then ' ' :: (r.drop 8).take 2 else [])
    ++ (if withTime ∧ 11 ≤ r.length then ':' :: (r.drop 10).take 2 else [])

/-- The full masking transformation per the spec: strip non-digits, truncate to
the maximum digit count of the mode, re-punctuate. -/
def specMask (withTime : Bool) (s : List Char) : List Char :=
  specRepunct withTime ((s.filter Char.isDigit).take (if withTime then 12 else 8))

/-! ## Lemmas about the `Date` model -/

lemma daysInMonth0_bounds (y m : Int) :
    28 ≤ daysInMonth0 y m ∧ daysInMonth0 y m ≤ 31 := by
  unfold daysInMonth0
  split_ifs <;> omega

lemma normMeasure_dec_neg (y m d : Int) (h : d < 1) :
    normMeasure (d + daysInMonth0 y m) < normMeasure d := by
  have hb := daysInMonth0_bounds y m
  unfold normMeasure
  split_ifs <;> omega

lemma normMeasure_dec_pos (y m d : Int) (h : daysInMonth0 y m < d) :
    normMeasure (d - daysInMonth0 y m) < normMeasure d := by
  have hb := daysInMonth0_bounds y m
  unfold normMeasure
  split_ifs <;> omega

lemma normDayF_succ_neg (f : Nat) (y m d : Int) (h1 : d < 1) :
    normDayF (f + 1) y m d =
      normDayF f (if m = 0 then y - 1 else y) (if m = 0 then 11 else m - 1)
        (d + daysInMonth0 (if m = 0 then y - 1 else y) (if m = 0 then 11 else m - 1)) := by
  simp only [normDayF, if_pos h1]

lemma normDayF_succ_pos (f : Nat) (y m d : Int) (h1 : ¬ d < 1) (h2 : daysInMonth0 y m < d) :
    normDayF (f + 1) y m d =
      normDayF f (if m = 11 then y + 1 else y) (if m = 11 then 0 else m + 1)
        (d - daysInMonth0 y m) := by
  simp only [normDayF, if_neg h1, if_pos h2]

lemma normDayF_succ_base (f : Nat) (y m d : Int) (h1 : ¬ d < 1) (h2 : ¬ daysInMonth0 y m < d) :
    normDayF (f + 1) y m d = (y, m, d) := by
  simp only [normDayF, if_neg h1, if_neg h2]

lemma normDayF_day_ge1 :
    ∀ f y m d, normMeasure d < f → 1 ≤ (normDayF f y m d).2.2 := by
  intro f
  induction f with
  | zero => intro y m d h; omega
  | succ f ih =>
    intro y m d h
    by_cases h1 : d < 1
    · have hdec := normMeasure_dec_neg
        (if m = 0 then y - 1 else y) (if m = 0 then 11 else m - 1) d h1
      rw [normDayF_succ_neg f y m d h1]
      exact ih _ _ _ (by omega)
    · by_cases h2 : daysInMonth0 y m < d
      · have hdec := normMeasure_dec_pos y m d h2
        rw [normDayF_succ_pos f y m d h1 h2]
        exact ih _ _ _ (by omega)
      · rw [normDayF_succ_base f y m d h1 h2]
        show (1:Int) ≤ d
        omega

lemma normDayF_month_mem :
    ∀ f y m d, normMeasure d < f → 0 ≤ m → m ≤ 11 →
      0 ≤ (normDayF f y m d).2.1 ∧ (normDayF f y m d).2.1 ≤ 11 := by
  intro f
  induction f with
  | zero => intro y m d h; omega
  | succ f ih =>
    intro y m d h hm0 hm1
    by_cases h1 : d < 1
    · have hdec := normMeasure_dec_neg
        (if m = 0 then y - 1 else y) (if m = 0 then 11 else m - 1) d h1
      rw [normDayF_succ_neg f y m d h1]
      have hb : 0 ≤ (if m = 0 then (11:Int) else m - 1) ∧
          (if m = 0 then (11:Int) else m - 1) ≤ 11 := by split_ifs <;> omega
      exact ih _ _ _ (by omega) hb.1 hb.2
    · by_cases h2 : daysInMonth0 y m < d
      · have hdec := normMeasure_dec_pos y m d h2
        rw [normDayF_succ_pos f y m d h1 h2]
        have hb : 0 ≤ (if m = 11 then (0:Int) else m + 1) ∧
            (if m = 11 then (0:Int) else m + 1) ≤ 11 := by split_ifs <;> omega
        exact ih _ _ _ (by omega) hb.1 hb.2
      · rw [normDayF_succ_base f y m d h1 h2]
        exact ⟨hm0, hm1⟩

lemma normDayF_day_le :
    ∀ f y m d, normMeasure d < f → 1 ≤ d → (normDayF f y m d).2.2 ≤ d := by
  intro f
  induction f with
  | zero => intro y m d h; omega
  | succ f ih =>
    intro y m d h hd
    by_cases h2 : daysInMonth0 y m < d
    · have hb := daysInMonth0_bounds y m
      have hdec := normMeasure_dec_pos y m d h2
      rw [normDayF_succ_pos f y m d (by omega) h2]
      have hrec := ih (if m = 11 then y + 1 else y) (if m = 11 then 0 else m + 1)
        (d - daysInMonth0 y m) (by omega) (by omega)
      omega
    · rw [normDayF_succ_base f y m d (by omega) h2]

lemma normDayF_year_ge :
    ∀ f y m d, normMeasure d < f → 1 ≤ d → y ≤ (normDayF f y m d).1 := by
  intro f
  induction f with
  | zero => intro y m d h; omega
  | succ f ih =>
    intro y m d h hd
    by_cases h2 : daysInMonth0 y m < d
    · have hb := daysInMonth0_bounds y m
      have hdec := normMeasure_dec_pos y m d h2
      rw [normDayF_succ_pos f y m d (by omega) h2]
      have hrec := ih (if m = 11 then y + 1 else y) (if m = 11 then 0 else m + 1)
        (d - daysInMonth0 y m) (by omega) (by omega)
      have hY : y ≤ (if m = 11 then y + 1 else y) := by split_ifs <;> omega
      omega
    · rw [normDayF_succ_base f y m d (by omega) h2]

lemma normDay_day_ge1 (y m d : Int) : 1 ≤ (normDay y m d).2.2 :=
  normDayF_day_ge1 _ y m d (by omega)

lemma normDay_month_mem (y m d : Int) (hm0 : 0 ≤ m) (hm1 : m ≤ 11) :
    0 ≤ (normDay y m d).2.1 ∧ (normDay y m d).2.1 ≤ 11 :=
  normDayF_month_mem _ y m d (by omega) hm0 hm1

lemma normDay_year_ge (y m d : Int) (hd : 1 ≤ d) : y ≤ (normDay y m d).1 :=
  normDayF_year_ge _ y m d (by omega) hd

lemma normDay_day_lt (y m d : Int) (h : daysInMonth0 y m < d) :
    (normDay y m d).2.2 < d := by
  have hb := daysInMonth0_bounds y m
  unfold normDay
  simp only [normDayF]
  rw [if_neg (by omega : ¬ d < 1), if_pos h]
  have hrec := normDayF_day_le (normMeasure d) (if m = 11 then y + 1 else y)
    (if m = 11 then 0 else m + 1) (d - daysInMonth0 y m)
    (normMeasure_dec_pos y m d h) (by omega)
  omega

lemma normDay_fix (y m d : Int) (h1 : 1 ≤ d) (h2 : d ≤ daysInMonth0 y m) :
    normDay y m d = (y, m, d) := by
  unfold normDay
  simp only [normDayF]
  rw [if_neg (by omega : ¬ d < 1), if_neg (by omega : ¬ daysInMonth0 y m < d)]

lemma jsMakeDate_of_valid (y m d : Int) (hy : ¬(0 ≤ y ∧ y ≤ 99))
    (hm1 : 1 ≤ m) (hm2 : m ≤ 12) (hd1 : 1 ≤ d) (hd2 : d ≤ daysInMonth0 y (m - 1)) :
    jsMakeDate y (m - 1) d = ⟨y, m - 1, d, 0, 0⟩ := by
  unfold jsMakeDate
  have e1 : (m - 1) % 12 = m - 1 := Int.emod_eq_of_lt (by omega) (by omega)
  have e2 : (m - 1) / 12 = 0 := Int.ediv_eq_zero_of_lt (by omega) (by omega)
  simp only [if_neg hy, e1, e2, add_zero]
  rw [normDay_fix y (m - 1) d hd1 hd2]

/-- Characterisation of the `getFullYear/getMonth/getDate` re-comparison
check done by the parsers: `new Date(y, m-1, d)` reads its three fields
back identically iff `y` avoids the JS two-digit-year remap and `(y,m,d)`
is an existing Gregorian date. -/
lemma jsMakeDate_check (y m d : Int) :
    ((jsMakeDate y (m - 1) d).year = y ∧ (jsMakeDate y (m - 1) d).month = m - 1 ∧
      (jsMakeDate y (m - 1) d).day = d)
    ↔ (¬(0 ≤ y ∧ y ≤ 99) ∧ 1 ≤ m ∧ m ≤ 12 ∧ 1 ≤ d ∧ d ≤ daysInMonth0 y (m - 1)) := by
  constructor
  · rintro ⟨hY, hM, hD⟩
    simp only [jsMakeDate] at hY hM hD
    have hmn0 : 0 ≤ (m - 1) % 12 := Int.emod_nonneg _ (by norm_num)
    have hmn11 : (m - 1) % 12 ≤ 11 := by
      have := Int.emod_lt_of_pos (m - 1) (show (0:Int) < 12 by norm_num); omega
    have hmem := normDay_month_mem
      ((if 0 ≤ y ∧ y ≤ 99 then 1900 + y else y) + (m - 1) / 12) ((m - 1) % 12) d hmn0 hmn11
    rw [hM] at hmem
    have hm : 1 ≤ m ∧ m ≤ 12 := by omega
    have e1 : (m - 1) % 12 = m - 1 := Int.emod_eq_of_lt (by omega) (by omega)
    have e2 : (m - 1) / 12 = 0 := Int.ediv_eq_zero_of_lt (by omega) (by omega)
    rw [e1, e2, add_zero] at hY hM hD
    have hd1 : 1 ≤ d := by
      have := normDay_day_ge1 (if 0 ≤ y ∧ y ≤ 99 then 1900 + y else y) (m - 1) d
      omega
    have hrem : ¬(0 ≤ y ∧ y ≤ 99) := by
      intro hc
      rw [if_pos hc] at hY
      have := normDay_year_ge (1900 + y) (m - 1) d hd1
      omega
    rw [if_neg hrem] at hY hM hD
    refine ⟨hrem, hm.1, hm.2, hd1, ?_⟩
    by_contra hgt
    have := normDay_day_lt y (m - 1) d (by omega)
    omega
  · rintro ⟨hy, hm1, hm2, hd1, hd2⟩
    rw [jsMakeDate_of_valid y m d hy hm1 hm2 hd1 hd2]
    exact ⟨rfl, rfl, rfl⟩

/-! ## Lemmas about characters, digit strings and `parseInt` -/

lemma isDigit_toNat_bounds (c : Char) (h : c.isDigit = true) :
    48 ≤ c.toNat ∧ c.toNat ≤ 57 := by
  simp only [Char.isDigit, Char.le_def, Bool.and_eq_true, decide_eq_true_eq] at h
  exact h

lemma char_ofNat_digit_isDigit (k : Nat) (h : k < 10) :
    (Char.ofNat (48 + k)).isDigit = true := by
  interval_cases k <;> decide

lemma char_ofNat_digit_toNat (k : Nat) (h : k < 10) :
    (Char.ofNat (48 + k)).toNat = 48 + k := by
  interval_cases k <;> decide

lemma char_digit_ofNat (c : Char) (h : c.isDigit = true) :
    Char.ofNat (48 + (c.toNat - 48)) = c := by
  have hb := isDigit_toNat_bounds c h
  have h2 : 48 + (c.toNat - 48) = c.toNat := by omega
  rw [h2]
  exact Char.ofNat_toNat c

lemma isDigit_ne_sep (c : Char) (h : c.isDigit = true) (s : Char)
    (hs : s.toNat < 48) : c ≠ s := by
  have hb := isDigit_toNat_bounds c h
  intro hc
  rw [hc] at hb
  omega

lemma isDigit_not_space (c : Char) (h : c.isDigit = true) : isJsSpace c = false := by
  have hb := isDigit_toNat_bounds c h
  unfold isJsSpace
  have h1 : c ≠ ' ' := isDigit_ne_sep c h ' ' (by decide)
  have h2 : c ≠ '\t' := isDigit_ne_sep c h '\t' (by decide)
  have h3 : c ≠ '\n' := isDigit_ne_sep c h '\n' (by decide)
  have h4 : c ≠ '\r' := isDigit_ne_sep c h '\r' (by decide)
  simp [h1, h2, h3, h4]

/-! ### `splitOnChar` -/

lemma splitOnChar_ne_nil (sep : Char) (l : List Char) : splitOnChar sep l ≠ [] := by
  cases l with
  | nil => simp [splitOnChar]
  | cons c t =>
    simp only [splitOnChar]
    split_ifs
    · simp
    · rcases h : splitOnChar sep t with _ | ⟨h', r⟩ <;> simp [consHead]

lemma splitOnChar_no_sep (sep : Char) (a : List Char) (h : sep ∉ a) :
    splitOnChar sep a = [a] := by
  induction a with
  | nil => rfl
  | cons c t ih =>
    have hc : c ≠ sep := by intro hc; exact h (by simp [hc])
    have ht : sep ∉ t := by intro hm; exact h (by simp [hm])
    simp only [splitOnChar, if_neg hc, ih ht, consHead]

lemma splitOnChar_append (sep : Char) (a t : List Char) (h : sep ∉ a) :
    splitOnChar sep (a ++ sep :: t) = a :: splitOnChar sep t := by
  induction a with
  | nil => simp [splitOnChar]
  | cons c t' ih =>
    have hc : c ≠ sep := by intro hc; exact h (by simp [hc])
    have ht : sep ∉ t' := by intro hm; exact h (by simp [hm])
    simp only [List.cons_append, splitOnChar, if_neg hc, List.append_eq, ih ht, consHead]

/-! ### decimal values and digit lists -/

lemma digitsValAux_nil (acc : Nat) : digitsValAux acc [] = acc := rfl

lemma digitsValAux_cons (acc : Nat) (c : Char) (t : List Char) :
    digitsValAux acc (c :: t) = digitsValAux (acc * 10 + (c.toNat - 48)) t := rfl

lemma digitsVal_nil : digitsVal [] = 0 := rfl

lemma digitsValAux_eq (l : List Char) :
    ∀ acc, digitsValAux acc l = acc * 10 ^ l.length + digitsVal l := by
  induction l with
  | nil =>
    intro acc
    rw [digitsValAux_nil, digitsVal_nil, List.length_nil]
    simp
  | cons c t ih =>
    intro acc
    rw [digitsValAux_cons, ih,
      show digitsVal (c :: t) = digitsValAux (0 * 10 + (c.toNat - 48)) t from rfl,
      ih, List.length_cons]
    ring

lemma digitsVal_cons (c : Char) (l : List Char) :
    digitsVal (c :: l) = (c.toNat - 48) * 10 ^ l.length + digitsVal l := by
  rw [show digitsVal (c :: l) = digitsValAux (0 * 10 + (c.toNat - 48)) l from rfl,
    digitsValAux_eq]
  ring

lemma digitsVal_append_singleton (l : List Char) (c : Char) :
    digitsVal (l ++ [c]) = 10 * digitsVal l + (c.toNat - 48) := by
  induction l with
  | nil =>
    rw [List.nil_append, digitsVal_cons, digitsVal_nil, List.length_nil]
    simp
  | cons c' t ih =>
    rw [List.cons_append, digitsVal_cons, digitsVal_cons, ih]
    simp only [List.length_append, List.length_singleton]
    ring

lemma digitsVal_lt (l : List Char) (h : ∀ c ∈ l, c.isDigit = true) :
    digitsVal l < 10 ^ l.length := by
  induction l with
  | nil => rw [digitsVal_nil]; simp
  | cons c t ih =>
    rw [digitsVal_cons]
    have hc := isDigit_toNat_bounds c (h c (by simp))
    have ht := ih (fun c' hc' => h c' (by simp [hc']))
    have hcv : c.toNat - 48 ≤ 9 := by omega
    calc (c.toNat - 48) * 10 ^ t.length + digitsVal t
        < (c.toNat - 48) * 10 ^ t.length + 10 ^ t.length := by omega
      _ = (c.toNat - 48 + 1) * 10 ^ t.length := by ring
      _ ≤ 10 * 10 ^ t.length := by
          exact Nat.mul_le_mul_right _ (by omega)
      _ = 10 ^ (c :: t).length := by
          rw [List.length_cons, pow_succ]; ring

/-! ### `natDigits` -/

lemma natDigitsF_irrel :
    ∀ f1, ∀ f2, ∀ n, n < f1 → n < f2 → natDigitsF f1 n = natDigitsF f2 n := by
  intro f1
  induction f1 with
  | zero => intro f2 n h; omega
  | succ f1 ih =>
    intro f2 n h1 h2
    cases f2 with
    | zero => omega
    | succ f2 =>
      simp only [natDigitsF]
      by_cases hn : n < 10
      · rw [if_pos hn, if_pos hn]
      · rw [if_neg hn, if_neg hn]
        have hd : n / 10 < n := Nat.div_lt_self (by omega) (by omega)
        rw [ih f2 (n / 10) (by omega) (by omega)]

lemma natDigits_unfold (n : Nat) :
    natDigits n = if n < 10 then [Char.ofNat (48 + n)]
      else natDigits (n / 10) ++ [Char.ofNat (48 + n % 10)] := by
  show natDigitsF (n + 1) n = _
  simp only [natDigitsF]
  by_cases hn : n < 10
  · rw [if_pos hn, if_pos hn]
  · rw [if_neg hn, if_neg hn]
    have hd : n / 10 < n := Nat.div_lt_self (by omega) (by omega)
    rw [natDigitsF_irrel n (n / 10 + 1) (n / 10) (by omega) (by omega)]
    rfl

lemma natDigits_all_digit (n : Nat) : ∀ c ∈ natDigits n, c.isDigit = true := by
  induction n using Nat.strong_induction_on with
  | _ n ih =>
    rw [natDigits_unfold]
    by_cases hn : n < 10
    · rw [if_pos hn]
      intro c hc
      simp only [List.mem_singleton] at hc
      rw [hc]
      exact char_ofNat_digit_isDigit n hn
    · rw [if_neg hn]
      intro c hc
      rcases List.mem_append.1 hc with h | h
      · exact ih (n / 10) (Nat.div_lt_self (by omega) (by omega)) c h
      · simp only [List.mem_singleton] at h
        rw [h]
        exact char_ofNat_digit_isDigit (n % 10) (Nat.mod_lt n (by omega))

lemma digitsVal_natDigits (n : Nat) : digitsVal (natDigits n) = n := by
  induction n using Nat.strong_induction_on with
  | _ n ih =>
    rw [natDigits_unfold]
    by_cases hn : n < 10
    · rw [if_pos hn]
      rw [show digitsVal [Char.ofNat (48 + n)] =
        digitsValAux (0 * 10 + ((Char.ofNat (48 + n)).toNat - 48)) [] from rfl]
      rw [digitsValAux_nil, char_ofNat_digit_toNat n hn]
      omega
    · rw [if_neg hn, digitsVal_append_singleton,
        ih (n / 10) (Nat.div_lt_self (by omega) (by omega)),
        char_ofNat_digit_toNat (n % 10) (Nat.mod_lt n (by omega))]
      omega

lemma natDigits_length (k : Nat) :
    ∀ n, 10 ^ k ≤ n → n < 10 ^ (k + 1) → (natDigits n).length = k + 1 := by
  induction k with
  | zero =>
    intro n h1 h2
    rw [natDigits_unfold, if_pos (by simpa using h2)]
    rfl
  | succ k ih =>
    intro n h1 h2
    have h10 : ¬ n < 10 := by
      have : (10:Nat) ^ 1 ≤ 10 ^ (k + 1) := Nat.pow_le_pow_right (by omega) (by omega)
      simp only [pow_one] at this
      omega
    rw [natDigits_unfold, if_neg h10]
    have hdiv1 : 10 ^ k ≤ n / 10 := by
      rw [Nat.le_div_iff_mul_le (by omega)]
      calc 10 ^ k * 10 = 10 ^ (k + 1) := by rw [pow_succ]
        _ ≤ n := h1
    have hdiv2 : n / 10 < 10 ^ (k + 1) := by
      rw [Nat.div_lt_iff_lt_mul (by omega)]
      calc n < 10 ^ (k + 1 + 1) := h2
        _ = 10 ^ (k + 1) * 10 := by rw [pow_succ]
    rw [List.length_append, ih (n / 10) hdiv1 hdiv2]
    rfl

lemma natDigits_digitsVal (l : List Char) :
    l ≠ [] → (∀ c ∈ l, c.isDigit = true) → l.head? ≠ some '0' →
      natDigits (digitsVal l) = l := by
  induction l using List.reverseRecOn with
  | nil => intro h; exact absurd rfl h
  | append_singleton t c ih =>
    intro _ hdig hhead
    rcases t with _ | ⟨c0, t'⟩
    · have hc := isDigit_toNat_bounds c (hdig c (by simp))
      simp only [List.nil_append]
      have hv : digitsVal [c] = c.toNat - 48 := by
        rw [show digitsVal [c] = digitsValAux (0 * 10 + (c.toNat - 48)) [] from rfl,
          digitsValAux_nil]
        omega
      rw [hv, natDigits_unfold, if_pos (by omega)]
      rw [char_digit_ofNat c (hdig c (by simp))]
    · have hhd : c0 ≠ '0' := by
        intro hc
        exact hhead (by simp [hc])
      have hc0 := isDigit_toNat_bounds c0 (hdig c0 (by simp))
      have hc0v : 1 ≤ c0.toNat - 48 := by
        by_contra hlt
        have he : c0.toNat = 48 := by omega
        apply hhd
        have h1 := char_digit_ofNat c0 (hdig c0 (by simp))
        rw [he] at h1
        rw [← h1]
      have hp1 : (1:Nat) ≤ 10 ^ t'.length := Nat.one_le_pow _ _ (by omega)
      have hdv1 : 1 ≤ digitsVal (c0 :: t') := by
        rw [digitsVal_cons]
        have := Nat.mul_le_mul hc0v hp1
        omega
      have hcd := isDigit_toNat_bounds c (hdig c (by simp))
      rw [digitsVal_append_singleton, natDigits_unfold, if_neg (by omega)]
      have hdv : (10 * digitsVal (c0 :: t') + (c.toNat - 48)) / 10 = digitsVal (c0 :: t') := by
        omega
      have hmv : (10 * digitsVal (c0 :: t') + (c.toNat - 48)) % 10 = c.toNat - 48 := by
        omega
      rw [hdv, hmv, char_digit_ofNat c (hdig c (by simp))]
      rw [ih (by simp)
        (fun c' hc' => hdig c' (by
          rcases List.mem_cons.1 hc' with h | h <;> simp [h]))
        (by simpa using hhd)]

/-! ### `jsParseInt` on digit strings -/

lemma jsParseInt_digits (l : List Char) (hne : l ≠ [])
    (hdig : ∀ c ∈ l, c.isDigit = true) :
    jsParseInt l = some ((digitsVal l : Int)) := by
  rcases l with _ | ⟨c, t⟩
  · exact absurd rfl hne
  · have hc := hdig c (by simp)
    have hm : c ≠ '-' := isDigit_ne_sep c hc '-' (by decide)
    have hp : c ≠ '+' := isDigit_ne_sep c hc '+' (by decide)
    have hdrop : List.dropWhile isJsSpace (c :: t) = c :: t := by
      rw [List.dropWhile_cons]
      simp [isDigit_not_space c hc]
    have htake : List.takeWhile Char.isDigit (c :: t) = c :: t :=
      List.takeWhile_eq_self_iff.mpr hdig
    have hcond : ¬(some c = some '-' ∨ some c = some '+') := by
      simp [hm, hp]
    simp only [jsParseInt, hdrop, List.head?_cons]
    rw [if_neg hcond, htake, if_neg (show ¬(c :: t = []) from by simp)]
    simp [hm]

/-! ## Parser characterisations -/

/-- What `parseADDate` computes on a string with known split/parse data. -/
lemma parseADDate_eq (s a b c : List Char) (y m d : Int)
    (hlen : s.length = 10)
    (hsplit : splitOnChar '-' s = [a, b, c])
    (ha : jsParseInt a = some y) (hb : jsParseInt b = some m)
    (hc : jsParseInt c = some d) :
    parseADDate s =
      if ¬(0 ≤ y ∧ y ≤ 99) ∧ 1 ≤ m ∧ m ≤ 12 ∧ 1 ≤ d ∧ d ≤ daysInMonth0 y (m - 1)
      then some ⟨y, m - 1, d, 0, 0⟩ else none := by
  have hne : ¬(s = [] ∨ s.length ≠ 10) := by
    rintro (h | h)
    · rw [h] at hlen; simp at hlen
    · exact h hlen
  unfold parseADDate
  rw [if_neg hne]
  simp only [hsplit, ha, hb, hc]
  by_cases hC : ¬(0 ≤ y ∧ y ≤ 99) ∧ 1 ≤ m ∧ m ≤ 12 ∧ 1 ≤ d ∧ d ≤ daysInMonth0 y (m - 1)
  · rw [if_pos hC, if_pos ((jsMakeDate_check y m d).mpr hC)]
    rw [jsMakeDate_of_valid y m d hC.1 hC.2.1 hC.2.2.1 hC.2.2.2.1 hC.2.2.2.2]
  · rw [if_neg hC, if_neg (fun hck => hC ((jsMakeDate_check y m d).mp hck))]

/-- What `parseThaiDate` computes on a string with known split/parse data. -/
lemma parseThaiDate_eq (today : Int) (s a b c : List Char) (d m yBE : Int)
    (hlen : s.length = 10)
    (hsplit : splitOnChar '/' s = [a, b, c])
    (ha : jsParseInt a = some d) (hb : jsParseInt b = some m)
    (hc : jsParseInt c = some yBE) :
    parseThaiDate today s =
      if 1 ≤ m ∧ m ≤ 12 ∧ 1 ≤ d ∧ d ≤ 31 ∧
          yBE - 543 ≤ today + 100 ∧ today - 100 ≤ yBE - 543 ∧
          ¬(0 ≤ yBE - 543 ∧ yBE - 543 ≤ 99) ∧ d ≤ daysInMonth0 (yBE - 543) (m - 1)
      then some ⟨yBE - 543, m - 1, d, 0, 0⟩ else none := by
  unfold parseThaiDate
  rw [if_neg (by simp [hlen])]
  simp only [hsplit, ha, hb, hc, BE_OFFSET]
  by_cases h1 : m < 1 ∨ m > 12
  · rw [if_pos h1, if_neg (by omega)]
  · rw [if_neg h1]
    by_cases h2 : d < 1 ∨ d > 31
    · rw [if_pos h2, if_neg (by omega)]
    · rw [if_neg h2]
      by_cases h3 : yBE - 543 > today + 100 ∨ yBE - 543 < today - 100
      · rw [if_pos h3, if_neg (by omega)]
      · rw [if_neg h3]
        by_cases hck : (jsMakeDate (yBE - 543) (m - 1) d).year = yBE - 543 ∧
            (jsMakeDate (yBE - 543) (m - 1) d).month = m - 1 ∧
            (jsMakeDate (yBE - 543) (m - 1) d).day = d
        · have hfull := (jsMakeDate_check (yBE - 543) m d).mp hck
          rw [if_pos hck, if_pos (by
            refine ⟨hfull.2.1, hfull.2.2.1, hfull.2.2.2.1, by omega, by omega, by omega,
              hfull.1, hfull.2.2.2.2⟩)]
          rw [jsMakeDate_of_valid (yBE - 543) m d hfull.1 hfull.2.1 hfull.2.2.1
            hfull.2.2.2.1 hfull.2.2.2.2]
        · rw [if_neg hck, if_neg (fun hbig => hck ((jsMakeDate_check (yBE - 543) m d).mpr
            ⟨hbig.2.2.2.2.2.2.1, hbig.1, hbig.2.1, hbig.2.2.1, hbig.2.2.2.2.2.2.2⟩))]

/-! ## Formatter structure lemmas -/

lemma natDigits_ne_nil (n : Nat) : natDigits n ≠ [] := by
  rw [natDigits_unfold]
  split_ifs <;> simp

lemma digits_not_mem (l : List Char) (hdig : ∀ ch ∈ l, ch.isDigit = true) (s : Char)
    (hs : s.toNat < 48 ∨ 57 < s.toNat) : s ∉ l := by
  intro hm
  have := isDigit_toNat_bounds s (hdig s hm)
  omega

/-- A value in `0..99`, stringified and padded, is a 2-digit field that
parses back to itself. -/
lemma field2_pack (v : Int) (h0 : 0 ≤ v) (h99 : v ≤ 99) :
    (pad2 (jsNumToString v)).length = 2 ∧
    (∀ ch ∈ pad2 (jsNumToString v), ch.isDigit = true) ∧
    jsParseInt (pad2 (jsNumToString v)) = some v := by
  have hnn : ¬ v < 0 := by omega
  rw [jsNumToString, if_neg hnn]
  have hcast : ((v.toNat : Nat) : Int) = v := Int.toNat_of_nonneg h0
  have hn99 : v.toNat ≤ 99 := by omega
  by_cases hlt : v.toNat < 10
  · have hud : natDigits v.toNat = [Char.ofNat (48 + v.toNat)] := by
      rw [natDigits_unfold, if_pos hlt]
    have hpad : pad2 [Char.ofNat (48 + v.toNat)] = ['0', Char.ofNat (48 + v.toNat)] := by
      unfold pad2
      simp [List.replicate]
    rw [hud, hpad]
    have hdig : ∀ ch ∈ ['0', Char.ofNat (48 + v.toNat)], ch.isDigit = true := by
      intro ch hch
      rcases List.mem_cons.1 hch with h | h
      · rw [h]; decide
      · simp only [List.mem_singleton] at h
        rw [h]
        exact char_ofNat_digit_isDigit _ hlt
    refine ⟨rfl, hdig, ?_⟩
    rw [jsParseInt_digits _ (by simp) hdig]
    have hval : digitsVal ['0', Char.ofNat (48 + v.toNat)] = v.toNat := by
      rw [digitsVal_cons, digitsVal_cons, digitsVal_nil,
        char_ofNat_digit_toNat _ hlt]
      have h0v : ('0').toNat = 48 := by decide
      rw [h0v]
      simp
    rw [hval, hcast]
  · have h10 : 10 ≤ v.toNat := by omega
    have hlen : (natDigits v.toNat).length = 2 := by
      have := natDigits_length 1 v.toNat (by simpa using h10) (by
        have : (10:Nat) ^ 2 = 100 := by norm_num
        omega)
      simpa using this
    have hpad : pad2 (natDigits v.toNat) = natDigits v.toNat := by
      unfold pad2
      rw [if_neg (by omega)]
    rw [hpad]
    refine ⟨hlen, natDigits_all_digit _, ?_⟩
    rw [jsParseInt_digits _ (natDigits_ne_nil _) (natDigits_all_digit _),
      digitsVal_natDigits, hcast]

/-- A year in `1000..9999`, stringified, is a 4-digit field that parses
back to itself. -/
lemma year4_pack (y : Int) (h1 : 1000 ≤ y) (h2 : y ≤ 9999) :
    (jsNumToString y).length = 4 ∧
    (∀ ch ∈ jsNumToString y, ch.isDigit = true) ∧
    jsParseInt (jsNumToString y) = some y := by
  have hnn : ¬ y < 0 := by omega
  rw [jsNumToString, if_neg hnn]
  have hcast : ((y.toNat : Nat) : Int) = y := Int.toNat_of_nonneg (by omega)
  have hlen : (natDigits y.toNat).length = 4 := by
    have := natDigits_length 3 y.toNat (by
        have : (10:Nat) ^ 3 = 1000 := by norm_num
        omega)
      (by
        have : (10:Nat) ^ 4 = 10000 := by norm_num
        omega)
    simpa using this
  refine ⟨hlen, natDigits_all_digit _, ?_⟩
  rw [jsParseInt_digits _ (natDigits_ne_nil _) (natDigits_all_digit _),
    digitsVal_natDigits, hcast]

/-! ## Round trips on formatted strings -/

/-- `parseADDate` inverts `formatADDate` on valid 4-digit-year dates. -/
lemma parseADDate_format (Y M D : Int) (hm0 : 0 ≤ M) (hm11 : M ≤ 11)
    (hd1 : 1 ≤ D) (hd2 : D ≤ daysInMonth0 Y M)
    (hy1 : 1000 ≤ Y) (hy2 : Y ≤ 9999) :
    parseADDate (formatADDate (some ⟨Y, M, D, 0, 0⟩)) = some ⟨Y, M, D, 0, 0⟩ := by
  obtain ⟨hYlen, hYdig, hYparse⟩ := year4_pack Y hy1 hy2
  obtain ⟨hMlen, hMdig, hMparse⟩ := field2_pack (M + 1) (by omega) (by omega)
  obtain ⟨hDlen, hDdig, hDparse⟩ := field2_pack D (by omega) (by
    have := daysInMonth0_bounds Y M
    omega)
  have hfmt : formatADDate (some ⟨Y, M, D, 0, 0⟩) =
      jsNumToString Y ++ '-' :: (pad2 (jsNumToString (M + 1)) ++ '-' ::
        pad2 (jsNumToString D)) := by
    show jsNumToString Y ++ '-' :: pad2 (jsNumToString (M + 1)) ++ '-' ::
        pad2 (jsNumToString D) = _
    simp only [List.cons_append, List.append_assoc]
  have hsplit : splitOnChar '-' (formatADDate (some ⟨Y, M, D, 0, 0⟩)) =
      [jsNumToString Y, pad2 (jsNumToString (M + 1)), pad2 (jsNumToString D)] := by
    rw [hfmt, splitOnChar_append _ _ _ (digits_not_mem _ hYdig '-' (by decide)),
      splitOnChar_append _ _ _ (digits_not_mem _ hMdig '-' (by decide)),
      splitOnChar_no_sep _ _ (digits_not_mem _ hDdig '-' (by decide))]
  have hlen : (formatADDate (some ⟨Y, M, D, 0, 0⟩)).length = 10 := by
    rw [hfmt]
    simp only [List.length_append, List.length_cons, hYlen, hMlen, hDlen]
  rw [parseADDate_eq _ _ _ _ Y (M + 1) D hlen hsplit hYparse hMparse hDparse]
  rw [show M + 1 - 1 = M from by omega]
  rw [if_pos ⟨by omega, by omega, by omega, hd1, hd2⟩]

/-- `parseThaiDate` inverts `formatThaiDate` on valid dates whose BE year
has 4 digits and whose AD year lies in the ±100-year window. -/
lemma parseThaiDate_format (today Y M D : Int) (hm0 : 0 ≤ M) (hm11 : M ≤ 11)
    (hd1 : 1 ≤ D) (hd2 : D ≤ daysInMonth0 Y M)
    (hbe1 : 1000 ≤ Y + 543) (hbe2 : Y + 543 ≤ 9999)
    (hw1 : today - 100 ≤ Y) (hw2 : Y ≤ today + 100) :
    parseThaiDate today (formatThaiDate (some ⟨Y, M, D, 0, 0⟩)) = some ⟨Y, M, D, 0, 0⟩ := by
  obtain ⟨hYlen, hYdig, hYparse⟩ := year4_pack (Y + 543) hbe1 hbe2
  obtain ⟨hMlen, hMdig, hMparse⟩ := field2_pack (M + 1) (by omega) (by omega)
  obtain ⟨hDlen, hDdig, hDparse⟩ := field2_pack D (by omega) (by
    have := daysInMonth0_bounds Y M
    omega)
  have hfmt : formatThaiDate (some ⟨Y, M, D, 0, 0⟩) =
      pad2 (jsNumToString D) ++ '/' :: (pad2 (jsNumToString (M + 1)) ++ '/' ::
        jsNumToString (Y + 543)) := by
    show pad2 (jsNumToString D) ++ '/' :: pad2 (jsNumToString (M + 1)) ++ '/' ::
        jsNumToString (Y + BE_OFFSET) = _
    simp only [List.cons_append, List.append_assoc, BE_OFFSET]
  have hsplit : splitOnChar '/' (formatThaiDate (some ⟨Y, M, D, 0, 0⟩)) =
      [pad2 (jsNumToString D), pad2 (jsNumToString (M + 1)), jsNumToString (Y + 543)] := by
    rw [hfmt, splitOnChar_append _ _ _ (digits_not_mem _ hDdig '/' (by decide)),
      splitOnChar_append _ _ _ (digits_not_mem _ hMdig '/' (by decide)),
      splitOnChar_no_sep _ _ (digits_not_mem _ hYdig '/' (by decide))]
  have hlen : (formatThaiDate (some ⟨Y, M, D, 0, 0⟩)).length = 10 := by
    rw [hfmt]
    simp only [List.length_append, List.length_cons, hYlen, hMlen, hDlen]
  rw [parseThaiDate_eq today _ _ _ _ D (M + 1) (Y + 543) hlen hsplit hDparse hMparse hYparse]
  rw [show Y + 543 - 543 = Y from by omega, show M + 1 - 1 = M from by omega]
  have hb := daysInMonth0_bounds Y M
  rw [if_pos ⟨by omega, by omega, by omega, by omega, by omega, by omega, by omega, hd2⟩]

/-- `parseADDateTime` inverts `formatADDateTime` on valid 4-digit-year
date-times. -/
lemma parseADDateTime_format (Y M D H Mi : Int) (hm0 : 0 ≤ M) (hm11 : M ≤ 11)
    (hd1 : 1 ≤ D) (hd2 : D ≤ daysInMonth0 Y M) (hy1 : 1000 ≤ Y) (hy2 : Y ≤ 9999)
    (hh0 : 0 ≤ H) (hh23 : H ≤ 23) (hmi0 : 0 ≤ Mi) (hmi59 : Mi ≤ 59) :
    parseADDateTime (formatADDateTime (some ⟨Y, M, D, H, Mi⟩)) = some ⟨Y, M, D, H, Mi⟩ := by
  obtain ⟨hYlen, hYdig, hYparse⟩ := year4_pack Y hy1 hy2
  obtain ⟨hMlen, hMdig, hMparse⟩ := field2_pack (M + 1) (by omega) (by omega)
  obtain ⟨hDlen, hDdig, hDparse⟩ := field2_pack D (by omega) (by
    have := daysInMonth0_bounds Y M
    omega)
  obtain ⟨hHlen, hHdig, hHparse⟩ := field2_pack H (by omega) (by omega)
  obtain ⟨hMilen, hMidig, hMiparse⟩ := field2_pack Mi (by omega) (by omega)
  have hfd : formatADDate (some ⟨Y, M, D, 0, 0⟩) =
      jsNumToString Y ++ '-' :: (pad2 (jsNumToString (M + 1)) ++ '-' ::
        pad2 (jsNumToString D)) := by
    show jsNumToString Y ++ '-' :: pad2 (jsNumToString (M + 1)) ++ '-' ::
        pad2 (jsNumToString D) = _
    simp only [List.cons_append, List.append_assoc]
  have hfmt : formatADDateTime (some ⟨Y, M, D, H, Mi⟩) =
      (jsNumToString Y ++ '-' :: (pad2 (jsNumToString (M + 1)) ++ '-' ::
        pad2 (jsNumToString D))) ++ ' ' ::
        (pad2 (jsNumToString H) ++ ':' :: pad2 (jsNumToString Mi)) := by
    show jsNumToString Y ++ '-' :: pad2 (jsNumToString (M + 1)) ++ '-' ::
        pad2 (jsNumToString D) ++ ' ' :: pad2 (jsNumToString H) ++ ':' ::
        pad2 (jsNumToString Mi) = _
    simp only [List.cons_append, List.append_assoc]
  have hdplen : (jsNumToString Y ++ '-' :: (pad2 (jsNumToString (M + 1)) ++ '-' ::
      pad2 (jsNumToString D))).length = 10 := by
    simp only [List.length_append, List.length_cons, hYlen, hMlen, hDlen]
  have htplen : (pad2 (jsNumToString H) ++ ':' :: pad2 (jsNumToString Mi)).length = 5 := by
    simp only [List.length_append, List.length_cons, hHlen, hMilen]
  have hdpmem : ∀ ch ∈ jsNumToString Y ++ '-' :: (pad2 (jsNumToString (M + 1)) ++ '-' ::
      pad2 (jsNumToString D)), ch.isDigit = true ∨ ch = '-' := by
    intro ch hch
    simp only [List.mem_append, List.mem_cons] at hch
    rcases hch with h | h | h | h | h
    · exact Or.inl (hYdig ch h)
    · exact Or.inr h
    · exact Or.inl (hMdig ch h)
    · exact Or.inr h
    · exact Or.inl (hDdig ch h)
  have htpmem : ∀ ch ∈ pad2 (jsNumToString H) ++ ':' :: pad2 (jsNumToString Mi),
      ch.isDigit = true ∨ ch = ':' := by
    intro ch hch
    simp only [List.mem_append, List.mem_cons] at hch
    rcases hch with h | h | h
    · exact Or.inl (hHdig ch h)
    · exact Or.inr h
    · exact Or.inl (hMidig ch h)
  have hspmem : ' ' ∉ jsNumToString Y ++ '-' :: (pad2 (jsNumToString (M + 1)) ++ '-' ::
      pad2 (jsNumToString D)) := by
    intro hm
    rcases hdpmem ' ' hm with h | h
    · exact absurd h (by decide)
    · exact absurd h (by decide)
  have hsptime : ' ' ∉ pad2 (jsNumToString H) ++ ':' :: pad2 (jsNumToString Mi) := by
    intro hm
    rcases htpmem ' ' hm with h | h
    · exact absurd h (by decide)
    · exact absurd h (by decide)
  have hsplit2 : splitOnChar ' ' (formatADDateTime (some ⟨Y, M, D, H, Mi⟩)) =
      [jsNumToString Y ++ '-' :: (pad2 (jsNumToString (M + 1)) ++ '-' ::
        pad2 (jsNumToString D)),
       pad2 (jsNumToString H) ++ ':' :: pad2 (jsNumToString Mi)] := by
    rw [hfmt, splitOnChar_append _ _ _ hspmem, splitOnChar_no_sep _ _ hsptime]
  have hsplitT : splitOnChar ':' (pad2 (jsNumToString H) ++ ':' :: pad2 (jsNumToString Mi)) =
      [pad2 (jsNumToString H), pad2 (jsNumToString Mi)] := by
    rw [splitOnChar_append _ _ _ (digits_not_mem _ hHdig ':' (by decide)),
      splitOnChar_no_sep _ _ (digits_not_mem _ hMidig ':' (by decide))]
  have hlen16 : (formatADDateTime (some ⟨Y, M, D, H, Mi⟩)).length = 16 := by
    rw [hfmt]
    simp only [List.length_append, List.length_cons, hdplen, htplen]
  have hpd : parseADDate (jsNumToString Y ++ '-' :: (pad2 (jsNumToString (M + 1)) ++ '-' ::
      pad2 (jsNumToString D))) = some ⟨Y, M, D, 0, 0⟩ := by
    rw [← hfd]
    exact parseADDate_format Y M D hm0 hm11 hd1 hd2 hy1 hy2
  unfold parseADDateTime
  rw [if_neg (by
    rintro (h | h)
    · rw [h] at hlen16
      simp at hlen16
    · exact h hlen16)]
  simp only [hsplit2]
  rw [if_neg (by
    rintro (h | h)
    · rw [h] at hdplen
      simp at hdplen
    · rw [h] at htplen
      simp at htplen)]
  simp only [hpd, hsplitT, hHparse, hMiparse]
  rw [if_neg (by omega), if_neg (by omega)]

/-- `parseThaiDateTime` inverts `formatThaiDateTime` on valid date-times
whose BE year has 4 digits and whose AD year is in the ±100-year window. -/
lemma parseThaiDateTime_format (today Y M D H Mi : Int) (hm0 : 0 ≤ M) (hm11 : M ≤ 11)
    (hd1 : 1 ≤ D) (hd2 : D ≤ daysInMonth0 Y M)
    (hbe1 : 1000 ≤ Y + 543) (hbe2 : Y + 543 ≤ 9999)
    (hw1 : today - 100 ≤ Y) (hw2 : Y ≤ today + 100)
    (hh0 : 0 ≤ H) (hh23 : H ≤ 23) (hmi0 : 0 ≤ Mi) (hmi59 : Mi ≤ 59) :
    parseThaiDateTime today (formatThaiDateTime (some ⟨Y, M, D, H, Mi⟩)) =
      some ⟨Y, M, D, H, Mi⟩ := by
  obtain ⟨hYlen, hYdig, hYparse⟩ := year4_pack (Y + 543) hbe1 hbe2
  obtain ⟨hMlen, hMdig, hMparse⟩ := field2_pack (M + 1) (by omega) (by omega)
  obtain ⟨hDlen, hDdig, hDparse⟩ := field2_pack D (by omega) (by
    have := daysInMonth0_bounds Y M
    omega)
  obtain ⟨hHlen, hHdig, hHparse⟩ := field2_pack H (by omega) (by omega)
  obtain ⟨hMilen, hMidig, hMiparse⟩ := field2_pack Mi (by omega) (by omega)
  have hfd : formatThaiDate (some ⟨Y, M, D, 0, 0⟩) =
      pad2 (jsNumToString D) ++ '/' :: (pad2 (jsNumToString (M + 1)) ++ '/' ::
        jsNumToString (Y + 543)) := by
    show pad2 (jsNumToString D) ++ '/' :: pad2 (jsNumToString (M + 1)) ++ '/' ::
        jsNumToString (Y + BE_OFFSET) = _
    simp only [List.cons_append, List.append_assoc, BE_OFFSET]
  have hfmt : formatThaiDateTime (some ⟨Y, M, D, H, Mi⟩) =
      (pad2 (jsNumToString D) ++ '/' :: (pad2 (jsNumToString (M + 1)) ++ '/' ::
        jsNumToString (Y + 543))) ++ ' ' ::
        (pad2 (jsNumToString H) ++ ':' :: pad2 (jsNumToString Mi)) := by
    show pad2 (jsNumToString D) ++ '/' :: pad2 (jsNumToString (M + 1)) ++ '/' ::
        jsNumToString (Y + BE_OFFSET) ++ ' ' :: pad2 (jsNumToString H) ++ ':' ::
        pad2 (jsNumToString Mi) = _
    simp only [List.cons_append, List.append_assoc, BE_OFFSET]
  have hdplen : (pad2 (jsNumToString D) ++ '/' :: (pad2 (jsNumToString (M + 1)) ++ '/' ::
      jsNumToString (Y + 543))).length = 10 := by
    simp only [List.length_append, List.length_cons, hYlen, hMlen, hDlen]
  have htplen : (pad2 (jsNumToString H) ++ ':' :: pad2 (jsNumToString Mi)).length = 5 := by
    simp only [List.length_append, List.length_cons, hHlen, hMilen]
  have hdpmem : ∀ ch ∈ pad2 (jsNumToString D) ++ '/' :: (pad2 (jsNumToString (M + 1)) ++ '/' ::
      jsNumToString (Y + 543)), ch.isDigit = true ∨ ch = '/' := by
    intro ch hch
    simp only [List.mem_append, List.mem_cons] at hch
    rcases hch with h | h | h | h | h
    · exact Or.inl (hDdig ch h)
    · exact Or.inr h
    · exact Or.inl (hMdig ch h)
    · exact Or.inr h
    · exact Or.inl (hYdig ch h)
  have htpmem : ∀ ch ∈ pad2 (jsNumToString H) ++ ':' :: pad2 (jsNumToString Mi),
      ch.isDigit = true ∨ ch = ':' := by
    intro ch hch
    simp only [List.mem_append, List.mem_cons] at hch
    rcases hch with h | h | h
    · exact Or.inl (hHdig ch h)
    · exact Or.inr h
    · exact Or.inl (hMidig ch h)
  have hspmem : ' ' ∉ pad2 (jsNumToString D) ++ '/' :: (pad2 (jsNumToString (M + 1)) ++ '/' ::
      jsNumToString (Y + 543)) := by
    intro hm
    rcases hdpmem ' ' hm with h | h
    · exact absurd h (by decide)
    · exact absurd h (by decide)
  have hsptime : ' ' ∉ pad2 (jsNumToString H) ++ ':' :: pad2 (jsNumToString Mi) := by
    intro hm
    rcases htpmem ' ' hm with h | h
    · exact absurd h (by decide)
    · exact absurd h (by decide)
  have hsplit2 : splitOnChar ' ' (formatThaiDateTime (some ⟨Y, M, D, H, Mi⟩)) =
      [pad2 (jsNumToString D) ++ '/' :: (pad2 (jsNumToString (M + 1)) ++ '/' ::
        jsNumToString (Y + 543)),
       pad2 (jsNumToString H) ++ ':' :: pad2 (jsNumToString Mi)] := by
    rw [hfmt, splitOnChar_append _ _ _ hspmem, splitOnChar_no_sep _ _ hsptime]
  have hsplitT : splitOnChar ':' (pad2 (jsNumToString H) ++ ':' :: pad2 (jsNumToString Mi)) =
      [pad2 (jsNumToString H), pad2 (jsNumToString Mi)] := by
    rw [splitOnChar_append _ _ _ (digits_not_mem _ hHdig ':' (by decide)),
      splitOnChar_no_sep _ _ (digits_not_mem _ hMidig ':' (by decide))]
  have hlen16 : (formatThaiDateTime (some ⟨Y, M, D, H, Mi⟩)).length = 16 := by
    rw [hfmt]
    simp only [List.length_append, List.length_cons, hdplen, htplen]
  have hpd : parseThaiDate today (pad2 (jsNumToString D) ++ '/' ::
      (pad2 (jsNumToString (M + 1)) ++ '/' :: jsNumToString (Y + 543))) =
      some ⟨Y, M, D, 0, 0⟩ := by
    rw [← hfd]
    exact parseThaiDate_format today Y M D hm0 hm11 hd1 hd2 hbe1 hbe2 hw1 hw2
  unfold parseThaiDateTime
  rw [if_neg (by
    intro h
    exact h hlen16)]
  simp only [hsplit2]
  rw [if_neg (by
    rintro (h | h)
    · rw [h] at hdplen
      simp at hdplen
    · rw [h] at htplen
      simp at htplen)]
  simp only [hpd, hsplitT, hHparse, hMiparse]
  rw [if_neg (by omega), if_neg (by omega)]

/-! ## Masking lemmas -/

lemma maskDigits_raw (wt : Bool) (text : List Char) :
    (maskDigits wt text).1 =
      if (if wt then 12 else 8) < (text.filter Char.isDigit).length
      then (text.filter Char.isDigit).take (if wt then 12 else 8)
      else text.filter Char.isDigit := rfl

lemma maskDigits_snd (wt : Bool) (text : List Char) :
    (maskDigits wt text).2 = maskFormat wt (maskDigits wt text).1 := rfl

lemma truncTake_mem (n : Nat) (l : List Char) (c : Char)
    (hc : c ∈ (if n < l.length then l.take n else l)) : c ∈ l := by
  split_ifs at hc
  · exact List.take_subset _ _ hc
  · exact hc

lemma truncTake_len (n : Nat) (l : List Char) :
    (if n < l.length then l.take n else l).length ≤ n := by
  split_ifs with h
  · simp only [List.length_take]
    omega
  · omega

lemma truncTake_nil_iff (n : Nat) (hn : 0 < n) (l : List Char) :
    (if n < l.length then l.take n else l) = [] ↔ l = [] := by
  split_ifs with h
  · constructor
    · intro htake
      rcases List.take_eq_nil_iff.mp htake with h0 | h0
      · exact absurd h0 (by omega)
      · exact h0
    · intro hf
      rw [hf] at h
      simp at h
  · exact Iff.rfl

lemma maskDigits_raw_digits (wt : Bool) (text : List Char) :
    ∀ c ∈ (maskDigits wt text).1, c.isDigit = true := by
  intro c hc
  rw [maskDigits_raw] at hc
  exact List.of_mem_filter (truncTake_mem _ _ _ hc)

lemma maskDigits_raw_le (wt : Bool) (text : List Char) :
    (maskDigits wt text).1.length ≤ (if wt then 12 else 8) := by
  rw [maskDigits_raw]
  exact truncTake_len _ _

lemma maskDigits_raw_nil_iff (wt : Bool) (text : List Char) :
    (maskDigits wt text).1 = [] ↔ text.filter Char.isDigit = [] := by
  rw [maskDigits_raw]
  exact truncTake_nil_iff _ (by split_ifs <;> omega) _

lemma maskFormat_filter (wt : Bool) (raw : List Char)
    (hdig : ∀ c ∈ raw, c.isDigit = true)
    (hlen : raw.length ≤ (if wt then 12 else 8)) :
    (maskFormat wt raw).filter Char.isDigit = raw := by
  have hslice : ∀ a b : Nat, (jsSlice raw a b).filter Char.isDigit = jsSlice raw a b := by
    intro a b
    refine List.filter_eq_self.mpr ?_
    intro c hc
    exact hdig c (List.drop_subset a raw (List.take_subset _ _ hc))
  have htake : ∀ n : Nat, (raw.take n).filter Char.isDigit = raw.take n := by
    intro n
    refine List.filter_eq_self.mpr ?_
    intro c hc
    exact hdig c (List.take_subset _ _ hc)
  have hsl0 : jsSlice raw 0 2 = raw.take 2 := by
    unfold jsSlice
    rw [List.drop_zero]
  have hch2 : raw.take 2 ++ jsSlice raw 2 4 = raw.take 4 := by
    unfold jsSlice
    have := List.take_add raw 2 2
    simpa using this.symm
  have hch3 : raw.take 4 ++ jsSlice raw 4 8 = raw.take 8 := by
    unfold jsSlice
    have := List.take_add raw 4 4
    simpa using this.symm
  have hch4 : raw.take 8 ++ jsSlice raw 8 10 = raw.take 10 := by
    unfold jsSlice
    have := List.take_add raw 8 2
    simpa using this.symm
  have hch5 : raw.take 10 ++ jsSlice raw 10 12 = raw.take 12 := by
    unfold jsSlice
    have := List.take_add raw 10 2
    simpa using this.symm
  have hfsep : ∀ (ch : Char) (l : List Char), ch.isDigit = false →
      (ch :: l).filter Char.isDigit = l.filter Char.isDigit := by
    intro ch l h
    simp [List.filter_cons, h]
  by_cases h3 : 3 ≤ raw.length
  · by_cases h5 : 5 ≤ raw.length
    · by_cases h9 : wt ∧ 9 ≤ raw.length
      · by_cases h11 : wt ∧ 11 ≤ raw.length
        · -- 11 ≤ len ≤ 12 (time mode)
          have hlen12 : raw.length ≤ 12 := by
            rcases h11 with ⟨hw, _⟩
            rw [if_pos hw] at hlen
            exact hlen
          simp only [maskFormat, if_pos (show 0 < raw.length by omega), if_pos h3,
            if_pos h5, if_pos h9, if_pos h11]
          rw [List.filter_append, List.filter_append, List.filter_append,
            List.filter_append, hsl0, htake 2,
            hfsep '/' _ (by decide), hslice 2 4,
            hfsep '/' _ (by decide), hslice 4 8,
            hfsep ' ' _ (by decide), hslice 8 10,
            hfsep ':' _ (by decide), hslice 10 12,
            hch2, hch3, hch4, hch5, List.take_of_length_le hlen12]
        · -- 9 ≤ len ≤ 10 (time mode)
          have hlen10 : raw.length ≤ 10 := by
            rcases h9 with ⟨hw, _⟩
            have : ¬ 11 ≤ raw.length := fun hc => h11 ⟨hw, hc⟩
            omega
          simp only [maskFormat, if_pos (show 0 < raw.length by omega), if_pos h3,
            if_pos h5, if_pos h9, if_neg h11]
          rw [List.filter_append, List.filter_append, List.filter_append,
            hsl0, htake 2,
            hfsep '/' _ (by decide), hslice 2 4,
            hfsep '/' _ (by decide), hslice 4 8,
            hfsep ' ' _ (by decide), hslice 8 10,
            hch2, hch3, hch4, List.take_of_length_le hlen10]
      · -- 5 ≤ len ≤ 8
        have h11 : ¬ (wt ∧ 11 ≤ raw.length) := by
          rintro ⟨hw, hc⟩
          exact h9 ⟨hw, by omega⟩
        have hlen8 : raw.length ≤ 8 := by
          by_cases hw : wt
          · have : ¬ 9 ≤ raw.length := fun hc => h9 ⟨hw, hc⟩
            omega
          · rw [if_neg hw] at hlen
            exact hlen
        simp only [maskFormat, if_pos (show 0 < raw.length by omega), if_pos h3,
          if_pos h5, if_neg h9, if_neg h11]
        rw [List.filter_append, List.filter_append, hsl0, htake 2,
          hfsep '/' _ (by decide), hslice 2 4,
          hfsep '/' _ (by decide), hslice 4 8,
          hch2, hch3, List.take_of_length_le hlen8]
    · -- 3 ≤ len ≤ 4
      have h9 : ¬ (wt ∧ 9 ≤ raw.length) := by rintro ⟨_, hc⟩; omega
      have h11 : ¬ (wt ∧ 11 ≤ raw.length) := by rintro ⟨_, hc⟩; omega
      simp only [maskFormat, if_pos (show 0 < raw.length by omega), if_pos h3,
        if_neg h5, if_neg h9, if_neg h11]
      rw [List.filter_append, hsl0, htake 2, hfsep '/' _ (by decide), hslice 2 4,
        hch2, List.take_of_length_le (by omega)]
  · by_cases h1 : 0 < raw.length
    · -- 1 ≤ len ≤ 2
      have h5 : ¬ (5 ≤ raw.length) := by omega
      have h9 : ¬ (wt ∧ 9 ≤ raw.length) := by rintro ⟨_, hc⟩; omega
      have h11 : ¬ (wt ∧ 11 ≤ raw.length) := by rintro ⟨_, hc⟩; omega
      simp only [maskFormat, if_pos h1, if_neg h3, if_neg h5, if_neg h9, if_neg h11]
      rw [hsl0, htake 2, List.take_of_length_le (by omega)]
    · -- len = 0
      have hr : raw = [] := List.eq_nil_of_length_eq_zero (by omega)
      subst hr
      simp [maskFormat]



/-- Padding the printed digits of the value of a 2-digit field recovers
the field. -/
lemma pad2_natDigits_two (l : List Char) (hlen : l.length = 2)
    (hdig : ∀ c ∈ l, c.isDigit = true) :
    pad2 (natDigits (digitsVal l)) = l := by
  rcases l with _ | ⟨c1, l1⟩
  · simp at hlen
  rcases l1 with _ | ⟨c0, l2⟩
  · simp at hlen
  rcases l2 with _ | ⟨x, l3⟩
  swap
  · simp at hlen
  have hb1 := isDigit_toNat_bounds c1 (hdig c1 (by simp))
  have hb0 := isDigit_toNat_bounds c0 (hdig c0 (by simp))
  by_cases h1 : c1 = '0'
  · subst h1
    have hv : digitsVal ['0', c0] = c0.toNat - 48 := by
      rw [digitsVal_cons, digitsVal_cons, digitsVal_nil]
      have h0v : ('0').toNat = 48 := by decide
      rw [h0v]
      simp
    rw [hv, natDigits_unfold, if_pos (by omega)]
    rw [char_digit_ofNat c0 (hdig c0 (by simp))]
    unfold pad2
    simp [List.replicate]
  · have hid : natDigits (digitsVal [c1, c0]) = [c1, c0] :=
      natDigits_digitsVal [c1, c0] (by simp) hdig (by simp [h1])
    rw [hid]
    unfold pad2
    rw [if_neg (by simp)]

/-- The re-punctuation chain of the source coincides with the
re-punctuation rule on every digit buffer. -/
lemma maskFormat_eq_specRepunct (wt : Bool) (r : List Char) :
    maskFormat wt r = specRepunct wt r := by
  by_cases h3 : 3 ≤ r.length
  · by_cases h5 : 5 ≤ r.length
    · by_cases h9 : wt ∧ 9 ≤ r.length
      · by_cases h11 : wt ∧ 11 ≤ r.length
        · simp only [maskFormat, specRepunct, if_pos (show 0 < r.length by omega),
            if_pos h3, if_pos h5, if_pos h9, if_pos h11, jsSlice]
          simp [List.append_assoc]
        · simp only [maskFormat, specRepunct, if_pos (show 0 < r.length by omega),
            if_pos h3, if_pos h5, if_pos h9, if_neg h11, jsSlice]
          simp [List.append_assoc]
      · have h11 : ¬ (wt ∧ 11 ≤ r.length) := by
          rintro ⟨hw, hc⟩
          exact h9 ⟨hw, by omega⟩
        simp only [maskFormat, specRepunct, if_pos (show 0 < r.length by omega),
          if_pos h3, if_pos h5, if_neg h9, if_neg h11, jsSlice]
        simp [List.append_assoc]
    · have h9 : ¬ (wt ∧ 9 ≤ r.length) := by rintro ⟨_, hc⟩; omega
      have h11 : ¬ (wt ∧ 11 ≤ r.length) := by rintro ⟨_, hc⟩; omega
      simp only [maskFormat, specRepunct, if_pos (show 0 < r.length by omega),
        if_pos h3, if_neg h5, if_neg h9, if_neg h11, jsSlice]
      simp [List.append_assoc]
  · have h5 : ¬ (5 ≤ r.length) := by omega
    have h9 : ¬ (wt ∧ 9 ≤ r.length) := by rintro ⟨_, hc⟩; omega
    have h11 : ¬ (wt ∧ 11 ≤ r.length) := by rintro ⟨_, hc⟩; omega
    by_cases h1 : 0 < r.length
    · simp only [maskFormat, specRepunct, if_pos h1, if_neg h3, if_neg h5,
        if_neg h9, if_neg h11, jsSlice]
      simp
    · have hr : r = [] := List.eq_nil_of_length_eq_zero (by omega)
      subst hr
      simp [maskFormat, specRepunct]

/-! ## Claims -/

/-- C2: every numerically well-formed date string whose
(year, month, day) triple does not denote a real Gregorian date is
rejected (`none`) by `parseADDate` (parseCanonical) and by
`parseThaiDate` (parseDisplay, any current year); dates are
re-constructed and compared field-by-field, never silently rolled over.
In particular `"2025-02-30"` and `"30/02/2568"` parse to `none`. -/
theorem C2_existence_rejection :
    (∀ (s a b c : List Char) (y m d : Int),
      splitOnChar '-' s = [a, b, c] →
      jsParseInt a = some y → jsParseInt b = some m → jsParseInt c = some d →
      ¬(1 ≤ m ∧ m ≤ 12 ∧ 1 ≤ d ∧ d ≤ daysInMonth0 y (m - 1)) →
      parseADDate s = none) ∧
    (∀ (today : Int) (s a b c : List Char) (d m yBE : Int),
      splitOnChar '/' s = [a, b, c] →
      jsParseInt a = some d → jsParseInt b = some m → jsParseInt c = some yBE →
      ¬(1 ≤ m ∧ m ≤ 12 ∧ 1 ≤ d ∧ d ≤ daysInMonth0 (yBE - 543) (m - 1)) →
      parseThaiDate today s = none) ∧
    parseADDate ("2025-02-30".data) = none ∧
    (∀ today : Int, parseThaiDate today ("30/02/2568".data) = none) := by
  have hAD : ∀ (s a b c : List Char) (y m d : Int),
      splitOnChar '-' s = [a, b, c] →
      jsParseInt a = some y → jsParseInt b = some m → jsParseInt c = some d →
      ¬(1 ≤ m ∧ m ≤ 12 ∧ 1 ≤ d ∧ d ≤ daysInMonth0 y (m - 1)) →
      parseADDate s = none := by
    intro s a b c y m d hs ha hb hc hreal
    by_cases hlen : s.length = 10
    · rw [parseADDate_eq s a b c y m d hlen hs ha hb hc]
      exact if_neg (fun hC => hreal ⟨hC.2.1, hC.2.2.1, hC.2.2.2.1, hC.2.2.2.2⟩)
    · unfold parseADDate
      rw [if_pos (Or.inr hlen)]
  have hThai : ∀ (today : Int) (s a b c : List Char) (d m yBE : Int),
      splitOnChar '/' s = [a, b, c] →
      jsParseInt a = some d → jsParseInt b = some m → jsParseInt c = some yBE →
      ¬(1 ≤ m ∧ m ≤ 12 ∧ 1 ≤ d ∧ d ≤ daysInMonth0 (yBE - 543) (m - 1)) →
      parseThaiDate today s = none := by
    intro today s a b c d m yBE hs ha hb hc hreal
    by_cases hlen : s.length = 10
    · rw [parseThaiDate_eq today s a b c d m yBE hlen hs ha hb hc]
      exact if_neg (fun hC => hreal ⟨hC.1, hC.2.1, hC.2.2.1, hC.2.2.2.2.2.2.2⟩)
    · unfold parseThaiDate
      rw [if_pos hlen]
  refine ⟨hAD, hThai, by decide, ?_⟩
  intro today
  exact hThai today _ "30".data "02".data "2568".data 30 2 2568
    (by decide) (by decide) (by decide) (by decide) (by decide)

/-- Witness for C2 at the concrete rolled-over input `"2025-02-31"`. -/
theorem C2_witness : parseADDate ("2025-02-31".data) = none :=
  C2_existence_rejection.1 ("2025-02-31".data) "2025".data "02".data "31".data
    2025 2 31 (by decide) (by decide) (by decide) (by decide) (by decide)

/-- C3: on an otherwise structurally and calendrically valid BE
string, `parseThaiDate` succeeds exactly when the decoded AD year lies in
the inclusive window `[today - 100, today + 100]` (for any real-world
current year `today ≥ 200`), while `parseADDate` applies no such window:
it accepts valid dates of any year in `100..9999` — a range safely inside
the JS `Date` clamp, which the model does not include — no matter how far
the year is from the current year. -/
theorem C3_plausibility_window :
    (∀ (today : Int) (s a b c : List Char) (d m yBE : Int),
      200 ≤ today → s.length = 10 →
      splitOnChar '/' s = [a, b, c] →
      jsParseInt a = some d → jsParseInt b = some m → jsParseInt c = some yBE →
      1 ≤ m → m ≤ 12 → 1 ≤ d → d ≤ daysInMonth0 (yBE - 543) (m - 1) →
      (parseThaiDate today s ≠ none ↔
        today - 100 ≤ yBE - 543 ∧ yBE - 543 ≤ today + 100)) ∧
    (∀ (s a b c : List Char) (y m d : Int),
      s.length = 10 → splitOnChar '-' s = [a, b, c] →
      jsParseInt a = some y → jsParseInt b = some m → jsParseInt c = some d →
      100 ≤ y → y ≤ 9999 → 1 ≤ m → m ≤ 12 → 1 ≤ d → d ≤ daysInMonth0 y (m - 1) →
      parseADDate s ≠ none) := by
  constructor
  · intro today s a b c d m yBE htoday hlen hs ha hb hc hm1 hm2 hd1 hdim
    have hb31 := daysInMonth0_bounds (yBE - 543) (m - 1)
    rw [parseThaiDate_eq today s a b c d m yBE hlen hs ha hb hc]
    constructor
    · intro hne
      rw [ne_eq, ite_eq_right_iff] at hne
      push_neg at hne
      exact ⟨hne.1.2.2.2.2.2.1, hne.1.2.2.2.2.1⟩
    · intro hw
      rw [if_pos ⟨hm1, hm2, hd1, by omega, hw.2, hw.1, by omega, hdim⟩]
      simp
  · intro s a b c y m d hlen hs ha hb hc hy hy2 hm1 hm2 hd1 hdim
    rw [parseADDate_eq s a b c y m d hlen hs ha hb hc]
    rw [if_pos ⟨by omega, hm1, hm2, hd1, hdim⟩]
    simp

/-- Witness for C3 with current year 2026: BE 2669 (AD 2126 = 2026+100)
parses; BE 2670 (AD 2127 = 2026+101) is rejected. -/
theorem C3_witness :
    parseThaiDate 2026 ("01/01/2669".data) ≠ none ∧
    parseThaiDate 2026 ("01/01/2670".data) = none := by
  constructor
  · exact (C3_plausibility_window.1 2026 _ "01".data "01".data "2669".data 1 1 2669
      (by decide) (by decide) (by decide) (by decide) (by decide) (by decide)
      (by decide) (by decide) (by decide) (by decide)).mpr (by decide)
  · by_contra hne
    have hw := (C3_plausibility_window.1 2026 _ "01".data "01".data "2670".data 1 1 2670
      (by decide) (by decide) (by decide) (by decide) (by decide) (by decide)
      (by decide) (by decide) (by decide) (by decide)).mp hne
    omega

/-- C4 counterexample: with the external value changing to the empty
string while the display text is the partial `"18/02/"`, the sync pass
does *not* clear the display (the claimed "clears iff incoming empty"
fails in its "if" direction). -/
theorem C4_counterexample :
    parseADDate ([] : List Char) = none ∧
    valueSync false 2026 ([] : List Char) ("18/02/".data) = "18/02/".data ∧
    "18/02/".data ≠ ([] : List Char) := ⟨by decide, by decide, by decide⟩

/-- C4 , amended: when the external value parses to `none`, the sync
pass clears the display iff the incoming string is empty *and* the
current display text itself parses to a non-null instant; a display text
that parses to `none` (partial or invalid) is always left unchanged by
the equality short-circuit. -/
theorem C4_sync_clear (wt : Bool) (today : Int) (value input : List Char)
    (hparse : parseAD wt value = none) :
    valueSync wt today value input =
      if parseThai wt today input ≠ none ∧ value = [] then ([] : List Char) else input := by
  unfold valueSync
  rw [hparse]
  cases hcur : parseThai wt today input with
  | none => simp [isSameDate, hcur]
  | some d =>
    by_cases hv : value = []
    · simp [isSameDate, hv, hcur]
    · simp [isSameDate, hv, hcur]

/-- Witness for C4: a non-empty but unparsable external value leaves a
fully-typed display untouched. -/
theorem C4_witness :
    valueSync false 2026 ("2025-02-30".data) ("18/02/2569".data) = "18/02/2569".data := by
  rw [C4_sync_clear false 2026 ("2025-02-30".data) ("18/02/2569".data) (by decide)]
  decide

/-- C8: a ValueSync pass whose dependencies (external value, mode)
are unchanged does not alter a partial display text; and even when the
body runs, equal decoded instants short-circuit to a no-op. -/
theorem C8_sync_non_clobber (wt : Bool) (today : Int) (prev value input : List Char)
    (hne : input ≠ []) (hpart : input.length ≠ (if wt then 16 else 10)) :
    valueSyncEffect wt wt today prev prev input = input ∧
    (isSameDate (parseAD wt value) (parseThai wt today input) = true →
      valueSync wt today value input = input) := by
  constructor
  · unfold valueSyncEffect
    rw [if_pos ⟨rfl, rfl⟩]
  · intro hsame
    simp only [valueSync]
    rw [if_pos hsame]

/-- Witness for C8: an unchanged external value leaves the partial
display text intact. -/
theorem C8_witness :
    valueSyncEffect false false 2026 ("2026-02-18".data) ("2026-02-18".data)
      ("18/02/".data) = "18/02/".data :=
  (C8_sync_non_clobber false 2026 ("2026-02-18".data) ("2026-02-18".data)
    ("18/02/".data) (by decide) (by decide)).1

/-- C9 counterexample: a non-digit character *after* a digit prefix
inside a numeric field is not rejected: `parseInt` truncates it. -/
theorem C9_counterexample :
    parseADDate ("2025-1a-01".data) = some ⟨2025, 0, 1, 0, 0⟩ ∧
    parseThaiDate 2026 ("01/1a/2568".data) = some ⟨2025, 0, 1, 0, 0⟩ :=
  ⟨by decide, by decide⟩

/-- C9 , amended: a numeric field with no parsable integer prefix
(`parseInt` = NaN) makes both parsers return `none`. -/
theorem C9_nan_rejection :
    (∀ (s a b c : List Char), splitOnChar '-' s = [a, b, c] →
      jsParseInt a = none ∨ jsParseInt b = none ∨ jsParseInt c = none →
      parseADDate s = none) ∧
    (∀ (today : Int) (s a b c : List Char), splitOnChar '/' s = [a, b, c] →
      jsParseInt a = none ∨ jsParseInt b = none ∨ jsParseInt c = none →
      parseThaiDate today s = none) := by
  constructor
  · intro s a b c hs hnan
    by_cases hlen : s.length = 10
    · unfold parseADDate
      rw [if_neg (by
        rintro (h | h)
        · rw [h] at hlen
          simp at hlen
        · exact h hlen)]
      simp only [hs]
      rcases hA : jsParseInt a with _ | y <;> rcases hB : jsParseInt b with _ | m <;>
        rcases hC : jsParseInt c with _ | d <;> simp_all
    · unfold parseADDate
      rw [if_pos (Or.inr hlen)]
  · intro today s a b c hs hnan
    by_cases hlen : s.length = 10
    · unfold parseThaiDate
      rw [if_neg (show ¬ s.length ≠ 10 from fun h => h hlen)]
      simp only [hs]
      rcases hA : jsParseInt a with _ | d <;> rcases hB : jsParseInt b with _ | m <;>
        rcases hC : jsParseInt c with _ | yBE <;> simp_all
    · unfold parseThaiDate
      rw [if_pos hlen]

/-- Witness for C9 (amended): a field starting with a letter is NaN. -/
theorem C9_witness : parseADDate ("2025-a2-01".data) = none :=
  C9_nan_rejection.1 _ "2025".data "a2".data "01".data (by decide)
    (Or.inr (Or.inl (by decide)))

/-- C10: the masking transformation is idempotent: re-masking its own
output changes nothing, in both modes. -/
theorem C10_mask_idempotent (wt : Bool) (s : List Char) :
    (maskDigits wt ((maskDigits wt s).2)).2 = (maskDigits wt s).2 := by
  have hdig := maskDigits_raw_digits wt s
  have hle := maskDigits_raw_le wt s
  have hff : ((maskDigits wt s).2).filter Char.isDigit = (maskDigits wt s).1 := by
    rw [maskDigits_snd]
    exact maskFormat_filter wt _ hdig hle
  have hraw2 : (maskDigits wt ((maskDigits wt s).2)).1 = (maskDigits wt s).1 := by
    rw [maskDigits_raw, hff, if_neg (by omega)]
  rw [maskDigits_snd wt ((maskDigits wt s).2), hraw2, ← maskDigits_snd]


/-- C1 counterexample: a perfectly valid instant (1 Jan 1500) whose
year lies outside the ±100-year plausibility window fails the
display-side round trip (with current year 2026). -/
theorem C1_counterexample :
    ValidDate ⟨1500, 0, 1, 0, 0⟩ ∧
    parseThaiDate 2026 (formatThaiDate (some ⟨1500, 0, 1, 0, 0⟩)) = none :=
  ⟨by decide, by decide⟩

/-- C1 , amended: the canonical round trip
`parseCanonical (formatCanonical x) = x` holds for valid instants with a
4-digit AD year (`1000..9999`), in both variants; the display round trip
additionally requires the BE year to have 4 digits and the AD year to lie
in the ±100-year plausibility window of the current year. -/
theorem C1_roundtrip (today : Int) (dt : JSDate) (hv : ValidDate dt)
    (hy1 : 1000 ≤ dt.year) (hy2 : dt.year ≤ 9999) :
    (dt.hour = 0 → dt.minute = 0 → parseADDate (formatADDate (some dt)) = some dt) ∧
    parseADDateTime (formatADDateTime (some dt)) = some dt ∧
    (dt.year + 543 ≤ 9999 → today - 100 ≤ dt.year → dt.year ≤ today + 100 →
      (dt.hour = 0 → dt.minute = 0 →
        parseThaiDate today (formatThaiDate (some dt)) = some dt) ∧
      parseThaiDateTime today (formatThaiDateTime (some dt)) = some dt) := by
  obtain ⟨Y, M, D, H, Mi⟩ := dt
  have hv2 : 0 ≤ M ∧ M ≤ 11 ∧ 1 ≤ D ∧ D ≤ daysInMonth0 Y M ∧
      0 ≤ H ∧ H ≤ 23 ∧ 0 ≤ Mi ∧ Mi ≤ 59 := hv
  obtain ⟨hm0, hm11, hd1, hd2, hh0, hh23, hmi0, hmi59⟩ := hv2
  have hy1a : 1000 ≤ Y := hy1
  have hy2a : Y ≤ 9999 := hy2
  refine ⟨?_, ?_, ?_⟩
  · intro hh hmm
    have hh2 : H = 0 := hh
    have hmm2 : Mi = 0 := hmm
    subst hh2
    subst hmm2
    exact parseADDate_format Y M D hm0 hm11 hd1 hd2 hy1 hy2
  · exact parseADDateTime_format Y M D H Mi hm0 hm11 hd1 hd2 hy1 hy2 hh0 hh23 hmi0 hmi59
  · intro hbe2 hw1 hw2
    have hbe2a : Y + 543 ≤ 9999 := hbe2
    have hw1a : today - 100 ≤ Y := hw1
    have hw2a : Y ≤ today + 100 := hw2
    refine ⟨?_, ?_⟩
    · intro hh hmm
      have hh2 : H = 0 := hh
      have hmm2 : Mi = 0 := hmm
      subst hh2
      subst hmm2
      exact parseThaiDate_format today Y M D hm0 hm11 hd1 hd2 (by omega)
        hbe2a hw1a hw2a
    · exact parseThaiDateTime_format today Y M D H Mi hm0 hm11 hd1 hd2 (by omega)
        hbe2a hw1a hw2a hh0 hh23 hmi0 hmi59

/-- Witness for C1 at 18 Feb 2026 14:30 with current year 2026. -/
theorem C1_witness :
    parseADDateTime (formatADDateTime (some ⟨2026, 1, 18, 14, 30⟩))
      = some ⟨2026, 1, 18, 14, 30⟩ ∧
    parseThaiDateTime 2026 (formatThaiDateTime (some ⟨2026, 1, 18, 14, 30⟩))
      = some ⟨2026, 1, 18, 14, 30⟩ := by
  have h := C1_roundtrip 2026 ⟨2026, 1, 18, 14, 30⟩ (by decide) (by decide) (by decide)
  exact ⟨h.2.1, (h.2.2 (by decide) (by decide) (by decide)).2⟩

/-- C7 counterexample: `"2025-002-8"` is accepted by `parseADDate`
but re-serialises to `"2025-02-08"`, not to the original string. -/
theorem C7_counterexample :
    parseADDate ("2025-002-8".data) ≠ none ∧
    formatADDate (parseADDate ("2025-002-8".data)) ≠ "2025-002-8".data :=
  ⟨by decide, by decide⟩

/-- C7 , amended: every accepted canonical string in the zero-padded
`YYYY-MM-DD` shape (4/2/2-digit segments, year segment not starting with
'0') re-serialises to the identical string. -/
theorem C7_canonical_fidelity (s y4 m2 d2 : List Char)
    (hs : s = y4 ++ '-' :: (m2 ++ '-' :: d2))
    (hy4 : y4.length = 4) (hm2 : m2.length = 2) (hd2l : d2.length = 2)
    (hyd : ∀ c ∈ y4, c.isDigit = true) (hmd : ∀ c ∈ m2, c.isDigit = true)
    (hdd : ∀ c ∈ d2, c.isDigit = true)
    (hhead : y4.head? ≠ some '0')
    (hacc : parseADDate s ≠ none) :
    formatADDate (parseADDate s) = s := by
  have hy4ne : y4 ≠ [] := by
    intro h
    rw [h] at hy4
    simp at hy4
  have hm2ne : m2 ≠ [] := by
    intro h
    rw [h] at hm2
    simp at hm2
  have hd2ne : d2 ≠ [] := by
    intro h
    rw [h] at hd2l
    simp at hd2l
  have hsplit : splitOnChar '-' s = [y4, m2, d2] := by
    rw [hs, splitOnChar_append _ _ _ (digits_not_mem _ hyd '-' (by decide)),
      splitOnChar_append _ _ _ (digits_not_mem _ hmd '-' (by decide)),
      splitOnChar_no_sep _ _ (digits_not_mem _ hdd '-' (by decide))]
  have hlen : s.length = 10 := by
    rw [hs]
    simp only [List.length_append, List.length_cons, hy4, hm2, hd2l]
  have hpy := jsParseInt_digits y4 hy4ne hyd
  have hpm := jsParseInt_digits m2 hm2ne hmd
  have hpd := jsParseInt_digits d2 hd2ne hdd
  have heq := parseADDate_eq s y4 m2 d2 (digitsVal y4) (digitsVal m2) (digitsVal d2)
    hlen hsplit hpy hpm hpd
  by_cases hC : ¬(0 ≤ ((digitsVal y4 : Nat) : Int) ∧ ((digitsVal y4 : Nat) : Int) ≤ 99) ∧
      1 ≤ ((digitsVal m2 : Nat) : Int) ∧ ((digitsVal m2 : Nat) : Int) ≤ 12 ∧
      1 ≤ ((digitsVal d2 : Nat) : Int) ∧
      ((digitsVal d2 : Nat) : Int) ≤
        daysInMonth0 ((digitsVal y4 : Nat) : Int) (((digitsVal m2 : Nat) : Int) - 1)
  swap
  · rw [heq, if_neg hC] at hacc
    exact absurd rfl hacc
  · rw [heq, if_pos hC]
    have hfd : formatADDate (some ⟨((digitsVal y4 : Nat) : Int),
        ((digitsVal m2 : Nat) : Int) - 1, ((digitsVal d2 : Nat) : Int), 0, 0⟩) =
        jsNumToString (digitsVal y4) ++ '-' ::
          (pad2 (jsNumToString (((digitsVal m2 : Nat) : Int) - 1 + 1)) ++ '-' ::
            pad2 (jsNumToString (digitsVal d2))) := by
      show jsNumToString ((digitsVal y4 : Nat) : Int) ++ '-' ::
          pad2 (jsNumToString (((digitsVal m2 : Nat) : Int) - 1 + 1)) ++ '-' ::
          pad2 (jsNumToString ((digitsVal d2 : Nat) : Int)) = _
      simp only [List.cons_append, List.append_assoc]
    rw [hfd, show ((digitsVal m2 : Nat) : Int) - 1 + 1 = ((digitsVal m2 : Nat) : Int)
      from by omega]
    have hy4id : jsNumToString ((digitsVal y4 : Nat) : Int) = y4 := by
      rw [jsNumToString, if_neg (by omega),
        show (((digitsVal y4 : Nat) : Int)).toNat = digitsVal y4 from by omega]
      exact natDigits_digitsVal y4 hy4ne hyd hhead
    have hm2id : pad2 (jsNumToString ((digitsVal m2 : Nat) : Int)) = m2 := by
      rw [jsNumToString, if_neg (by omega),
        show (((digitsVal m2 : Nat) : Int)).toNat = digitsVal m2 from by omega]
      exact pad2_natDigits_two m2 hm2 hmd
    have hd2id : pad2 (jsNumToString ((digitsVal d2 : Nat) : Int)) = d2 := by
      rw [jsNumToString, if_neg (by omega),
        show (((digitsVal d2 : Nat) : Int)).toNat = digitsVal d2 from by omega]
      exact pad2_natDigits_two d2 hd2l hdd
    rw [hy4id, hm2id, hd2id, ← hs]

/-- Witness for C7 at the canonical string `"2026-02-18"`. -/
theorem C7_witness : formatADDate (parseADDate ("2026-02-18".data)) = "2026-02-18".data :=
  C7_canonical_fidelity ("2026-02-18".data) "2026".data "02".data "18".data
    (by decide) (by decide) (by decide) (by decide) (by decide) (by decide)
    (by decide) (by decide) (by decide)

/-- C5: on an input change, a display text reaching exactly the
full mode length emits `formatCanonical` of the decoded instant on
parse success and the empty string on parse failure; an empty digit
buffer emits the empty string; partial input emits nothing. -/
theorem C5_completion_emission (wt : Bool) (today : Int) (text : List Char) :
    ((maskDigits wt text).2.length = (if wt then 16 else 10) →
      (∀ dt : JSDate, parseThai wt today (maskDigits wt text).2 = some dt →
        handleInputChange wt today text =
          ((maskDigits wt text).2, some (formatAD wt (some dt)))) ∧
      (parseThai wt today (maskDigits wt text).2 = none →
        handleInputChange wt today text = ((maskDigits wt text).2, some []))) ∧
    (text.filter Char.isDigit = [] →
      handleInputChange wt today text = ((maskDigits wt text).2, some [])) ∧
    ((maskDigits wt text).2.length ≠ (if wt then 16 else 10) →
      text.filter Char.isDigit ≠ [] →
      handleInputChange wt today text = ((maskDigits wt text).2, none)) := by
  by_cases hl : (maskDigits wt text).2.length = (if wt then 16 else 10)
  · refine ⟨fun _ => ⟨?_, ?_⟩, ?_, fun hne _ => absurd hl hne⟩
    · intro dt hp
      simp only [handleInputChange]
      rw [if_pos hl]
      simp only [hp]
    · intro hp
      simp only [handleInputChange]
      rw [if_pos hl]
      simp only [hp]
    · intro hfe
      exfalso
      have hraw : (maskDigits wt text).1 = [] := (maskDigits_raw_nil_iff wt text).mpr hfe
      have hfmt : (maskDigits wt text).2 = [] := by
        rw [maskDigits_snd, hraw]
        simp [maskFormat]
      rw [hfmt] at hl
      cases wt <;> simp_all
  · refine ⟨fun h => absurd h hl, ?_, ?_⟩
    · intro hfe
      have hraw : (maskDigits wt text).1 = [] := (maskDigits_raw_nil_iff wt text).mpr hfe
      simp only [handleInputChange]
      rw [if_neg hl, if_pos (by rw [hraw]; rfl)]
    · intro _ hfne
      have hraw : (maskDigits wt text).1 ≠ [] :=
        fun h => hfne ((maskDigits_raw_nil_iff wt text).mp h)
      simp only [handleInputChange]
      rw [if_neg hl, if_neg (fun h0 => hraw (List.eq_nil_of_length_eq_zero h0))]

/-- Witness for C5: the full time-mode digit buffer emits the canonical
date-time string. -/
theorem C5_witness :
    handleInputChange true 2026 ("180225691430".data)
      = ("18/02/2569 14:30".data, some ("2026-02-18 14:30".data)) := by
  have h := ((C5_completion_emission true 2026 ("180225691430".data)).1 (by decide)).1
    ⟨2026, 1, 18, 14, 30⟩ (by decide)
  rw [h]
  decide

/-- C6: the masking transformation of the source equals the
strip/truncate/re-punctuate rule on every keystroke buffer in both
modes; raw digits `"18022569"` in date-only mode display as
`"18/02/2569"`, whose completion emits canonical `"2026-02-18"`. -/
theorem C6_masking_refinement :
    (∀ (wt : Bool) (s : List Char), (maskDigits wt s).2 = specMask wt s) ∧
    (maskDigits false ("18022569".data)).2 = "18/02/2569".data ∧
    (∀ today : Int, today - 100 ≤ 2026 → 2026 ≤ today + 100 →
      handleInputChange false today ("18022569".data) =
        ("18/02/2569".data, some ("2026-02-18".data))) := by
  refine ⟨?_, by decide, ?_⟩
  · intro wt s
    have hraw : (maskDigits wt s).1 = (s.filter Char.isDigit).take (if wt then 12 else 8) := by
      rw [maskDigits_raw]
      split_ifs with h
      all_goals first
        | rfl
        | exact (List.take_of_length_le (by omega)).symm
    rw [maskDigits_snd, hraw]
    exact maskFormat_eq_specRepunct wt _
  · intro today h1 h2
    have hp : parseThaiDate today ("18/02/2569".data) = some ⟨2026, 1, 18, 0, 0⟩ := by
      rw [parseThaiDate_eq today ("18/02/2569".data) "18".data "02".data "2569".data
        18 2 2569 (by decide) (by decide) (by decide) (by decide) (by decide)]
      rw [if_pos ⟨by decide, by decide, by decide, by decide, by omega, by omega,
        by decide, by decide⟩]
      decide
    have hm12 : maskDigits false ("18022569".data) = ("18022569".data, "18/02/2569".data) := by
      decide
    have hpt : parseThai false today ("18/02/2569".data) = some ⟨2026, 1, 18, 0, 0⟩ := hp
    simp only [handleInputChange, hm12]
    rw [if_pos (by decide)]
    simp only [hpt]
    decide

/-- Witness for C6 with current year 2026. -/
theorem C6_witness :
    handleInputChange false 2026 ("18022569".data) =
      ("18/02/2569".data, some ("2026-02-18".data)) :=
  C6_masking_refinement.2.2 2026 (by decide) (by decide)

end ThaiDatePicker
